import Mathlib

/-!
The reconciliation loop of kubernetes-twemproxy (`main.go`).

A shallow embedding of `src/main.go`.  Calls into the outside world (the
Kubernetes API, `text/template`, the file system, `os/exec`) are answered by an
explicit environment `Env`, one per reconciliation step; every call the program
makes is recorded, in program order, as an `Effect`.  A reconciliation step
returns the effects it performed together with either the next loop state or
the way the program halted.

What the embedding takes from the outside world:
* the receive that follows `Kill()` completes (a killed process exits and its
  goroutine sends on `finished`);
* the goroutine of an instance is not a function of the program but an event
  source: `Event.finished` is a value arriving on a `finished` channel, which
  the `select` receives only on the channel it listens on;
* a call to the operating system is recorded where it is made, with the
  arguments passed and the answer received (`osOpenFile`, `fileWriteString`,
  `fileClose`, `cmdStart`); what the calls do to the config file is read off
  the trace by `fileAfter`, and nothing but these calls touches the file;
* when `main` returns the exit status is 0, after a panic it is 2.
Flag parsing and the construction of the client set, which precede the first
reconciliation, are not modelled.
-/

namespace Twemproxy

/-- A Go `error` value that is not nil, by its message. -/
abbrev Error := String

/-! ## Data model -/

/-- The fields of `v1.EndpointPort` that `getEndpoints` reads; `Port` is an
`int32`, and `int(p.Port)` keeps its value. -/
structure EndpointPort where
  Name : String
  Port : Int
  deriving DecidableEq, Repr

/-- The field of `v1.EndpointAddress` that `getEndpoints` reads. -/
structure EndpointAddress where
  IP : String
  deriving DecidableEq, Repr

/-- The type `v1.EndpointSubset`. -/
structure EndpointSubset where
  Addresses : List EndpointAddress
  Ports : List EndpointPort
  deriving DecidableEq, Repr

/-- The type `v1.Endpoints`. -/
structure Endpoints where
  Subsets : List EndpointSubset
  deriving DecidableEq, Repr

/-- A parsed `*template.Template`, by what `Execute` does on a `[]string`:
the text written to the buffer and the error `Execute` returns (if any). -/
abbrev Template := List String → String × Option Error

/-- The command-line flags and the positional argument of `main`. -/
structure Flags where
  templatePath : String
  configPath : String
  twemproxyPath : String
  servicePortName : String
  serviceName : String

/-- The struct `TwemproxyInstance`: `cmd` and `finished` are identified by the
serial number of the object (`exec.Cmd`, channel) created for the instance. -/
structure TwemproxyInstance where
  cmd : Nat
  finished : Nat
  deriving DecidableEq, Repr

/-- What the outside world answers during one reconciliation step. -/
structure Env where
  /-- Answer of `os.Getenv`. -/
  getenv : String → String
  /-- Answer of `clientset.Core().Endpoints(namespace).Get(serviceName)`. -/
  endpointsGet : String → String → Except Error Endpoints
  /-- Answer of `template.ParseFiles(templateFile)`. -/
  parseFiles : String → Except Error Template
  /-- Answer of `os.OpenFile(configFile, O_CREATE|O_WRONLY|O_TRUNC, 0644)`: the error, if any. -/
  openFile : String → Option Error
  /-- Answer of `file.WriteString(content)`: the error, if any. -/
  writeString : String → Option Error
  /-- Answer of `cmd.Start()`: the error, if any. -/
  start : List String → Option Error

/-- The calls the program makes, in program order. -/
inductive Effect where
  /-- The call `Endpoints(namespace).Get(serviceName)`. -/
  | resolve (ns serviceName : String)
  /-- The call `applyTemplate(templateFile, endpoints)`. -/
  | render (templateFile : String) (endpoints : List String)
  /-- The call `os.OpenFile(name, O_CREATE|O_WRONLY|O_TRUNC, 0644)`, which
  returned `err`. -/
  | openFile (name : String) (err : Option Error)
  /-- The call `file.WriteString(s)` on the file opened at `name`, which
  returned `err`. -/
  | writeString (name : String) (s : String) (err : Option Error)
  /-- The call `file.Close()` on the file opened at `name`. -/
  | close (name : String)
  /-- A call `cmd.Start()` that returned nil: the argv of the command and the
  instance the started process belongs to. -/
  | launch (argv : List String) (inst : TwemproxyInstance)
  /-- A call `cmd.Start()` that returned `err`: no process was started. -/
  | launchFailed (argv : List String) (err : Error)
  /-- The call `cmd.Process.Kill()` on the process of instance `cmd`. -/
  | kill (cmd : Nat)
  /-- A value was received from the `finished` channel `ch`. -/
  | recv (ch : Nat)
  /-- A call of `fmt.Printf`. -/
  | print (msg : String)
  deriving DecidableEq, Repr

/-- How the program stops. -/
inductive Halt where
  /-- A call of `panic(msg)`. -/
  | panic (msg : String)
  /-- The `return` from `main`. -/
  | returned
  /-- A receive from a nil channel, which never completes. -/
  | blocked
  deriving DecidableEq, Repr

/-- The exit status of the Go program: 2 after an unrecovered panic, 0 when
`main` returns; a blocked program has none. -/
def Halt.exitStatus : Halt → Option Nat
  | .panic _ => some 2
  | .returned => some 0
  | .blocked => none

/-- The loop-local variables of `main`, plus the number of instances created so
far (which names the next `exec.Cmd` and channel). -/
structure State where
  prevConfig : String
  currentInstance : Option TwemproxyInstance
  currentInstanceFinished : Option Nat
  created : Nat
  deriving DecidableEq, Repr

/-! ## The functions of `main.go` -/

/-- The function `strconv.Itoa`. -/
def itoa (n : Int) : String :=
  if n < 0 then "-" ++ Nat.repr n.natAbs else Nat.repr n.toNat

/-- The function `applyTemplate`: the error of `Execute` is not looked at. -/
def applyTemplate (parseFiles : String → Except Error Template)
    (templateFile : String) (endpoints : List String) : String × Option Error :=
  match parseFiles templateFile with
  | .error err => ("", some err)
  | .ok tmpl => ((tmpl endpoints).1, none)

/-- The call `os.OpenFile(name, O_CREATE|O_WRONLY|O_TRUNC, 0644)`: its record in
the trace, with the answer of the environment, and the error returned. -/
def osOpenFile (e : Env) (name : String) : List Effect × Option Error :=
  ([.openFile name (e.openFile name)], e.openFile name)

/-- The call `file.WriteString(s)` on the file opened at `name`: its record in
the trace, with the answer of the environment, and the error returned. -/
def fileWriteString (e : Env) (name s : String) : List Effect × Option Error :=
  ([.writeString name s (e.writeString s)], e.writeString s)

/-- The call `file.Close()` on the file opened at `name`: its record in the
trace (the error it returns is not looked at). -/
def fileClose (name : String) : List Effect :=
  [.close name]

/-- The function `writeConfig`: the calls it makes and the error it returns.
The deferred `file.Close()` runs when the function returns after a successful
open. -/
def writeConfig (e : Env) (content configFile : String) : List Effect × Option Error :=
  match osOpenFile e configFile with
  | (t, some err) => (t, some err)
  | (t, none) =>
    match fileWriteString e configFile content with
    | (t1, err) => (t ++ t1 ++ fileClose configFile, err)

/-- The inner loop of `getEndpoints` over `subset.Ports`, from the current
value of `port`. -/
def portLoop (servicePortName : String) : List EndpointPort → String → String
  | [], port => port
  | p :: ps, port =>
    if p.Name = servicePortName then portLoop servicePortName ps (itoa p.Port)
    else portLoop servicePortName ps port

/-- The loop of `getEndpoints` over `subset.Addresses`, from the current value
of `res`. -/
def addressLoop (port : String) : List EndpointAddress → List String → List String
  | [], res => res
  | a :: rest, res => addressLoop port rest (res ++ [a.IP ++ ":" ++ port])

/-- The outer loop of `getEndpoints` over `endpoints.Subsets`, from the current
value of `res`; `err` is the error variable of the function, which is nil when
the loop runs. -/
def subsetLoop (servicePortName : String) (err : Option Error) :
    List EndpointSubset → List String → List String × Option Error
  | [], res => (res, none)
  | subset :: rest, res =>
    let port := portLoop servicePortName subset.Ports ""
    if port = "" then ([], err)
    else subsetLoop servicePortName err rest (addressLoop port subset.Addresses res)

/-- The function `getEndpoints`, on the answer of the cluster. -/
def getEndpoints (servicePortName : String) (answer : Except Error Endpoints) :
    List String × Option Error :=
  match answer with
  | .error err => ([], some err)
  | .ok endpoints => subsetLoop servicePortName none endpoints.Subsets []

/-- The namespace `getConfig` asks for: `KUBE_NAMESPACE`, or `default`. -/
def namespaceOf (e : Env) : String :=
  if e.getenv "KUBE_NAMESPACE" = "" then "default" else e.getenv "KUBE_NAMESPACE"

/-- The call `getEndpoints(clientset, serviceName, namespace)` of `getConfig`. -/
def resolve (f : Flags) (e : Env) : List String × Option Error :=
  getEndpoints f.servicePortName (e.endpointsGet (namespaceOf e) f.serviceName)

/-- The closure `getConfig` of `main`: the calls it makes, and the document it
returns or the message it panics with. -/
def getConfig (f : Flags) (e : Env) : List Effect × Except String String :=
  match resolve f e with
  | (_, some err) =>
    ([.resolve (namespaceOf e) f.serviceName],
      .error (err ++ " (namespace " ++ namespaceOf e ++ ")"))
  | (endpoints, none) =>
    if endpoints.length = 0 then ([.resolve (namespaceOf e) f.serviceName], .ok "")
    else
      match applyTemplate e.parseFiles f.templatePath endpoints with
      | (_, some err) =>
        ([.resolve (namespaceOf e) f.serviceName, .render f.templatePath endpoints],
          .error err)
      | (res, none) =>
        ([.resolve (namespaceOf e) f.serviceName, .render f.templatePath endpoints],
          .ok res)

/-- The argv of `exec.Command(twemproxyPath, "-v", "11", "-c", configPath)`. -/
def command (twemproxyPath configPath : String) : List String :=
  [twemproxyPath, "-v", "11", "-c", configPath]

/-- The call `cmd.Start()` on the command object numbered `cmd`, with argv
`argv`: its record in the trace, by the answer of the environment, and the
error returned.  The process it starts belongs to the instance whose command
and channel carry the number `cmd`. -/
def cmdStart (e : Env) (cmd : Nat) (argv : List String) : List Effect × Option Error :=
  match e.start argv with
  | some err => ([.launchFailed argv err], some err)
  | none => ([.launch argv { cmd := cmd, finished := cmd }], none)

/-- The function `launchTwemproxy`: the calls it makes, and the new instance or
the error of `cmd.Start()`; `created` numbers the objects it creates. -/
def launchTwemproxy (e : Env) (created : Nat) (twemproxyPath configPath : String) :
    List Effect × Except Error TwemproxyInstance :=
  match cmdStart e created (command twemproxyPath configPath) with
  | (t, some err) => (t, .error err)
  | (t, none) => (t, .ok { cmd := created, finished := created })

/-- Lines 156-173 of `main`: the first reconciliation, before the loop. -/
def startup (f : Flags) (e : Env) : List Effect × Except Halt State :=
  match getConfig f e with
  | (t, .error msg) => (t, .error (.panic msg))
  | (t, .ok prevConfig) =>
    match writeConfig e prevConfig f.configPath with
    | (tw, some err) => (t ++ tw, .error (.panic err))
    | (tw, none) =>
      if prevConfig ≠ "" then
        match launchTwemproxy e 0 f.twemproxyPath f.configPath with
        | (tl, .error err) => (t ++ tw ++ tl, .error (.panic err))
        | (tl, .ok inst) =>
          (t ++ tw ++ tl,
            .ok { prevConfig := prevConfig, currentInstance := some inst,
                  currentInstanceFinished := some inst.finished, created := 1 })
      else
        (t ++ tw ++ [.print "No enpoints available, waiting to launch twemproxy"],
          .ok { prevConfig := prevConfig, currentInstance := none,
                currentInstanceFinished := none, created := 0 })

/-- Lines 187-192 of `main`: kill the owned instance, if any, and receive from
`currentInstanceFinished`. -/
def stopCurrent (s : State) : List Effect × Except Halt State :=
  match s.currentInstance with
  | some inst =>
    match s.currentInstanceFinished with
    | some ch =>
      ([.kill inst.cmd, .recv ch],
        .ok { s with currentInstance := none, currentInstanceFinished := none })
    | none => ([.kill inst.cmd], .error .blocked)
  | none => ([], .ok s)

/-- Lines 180-203 of `main`: the body of `case <-timer.C`. -/
def tick (f : Flags) (e : Env) (s : State) : List Effect × Except Halt State :=
  match getConfig f e with
  | (t, .error msg) => (t, .error (.panic msg))
  | (t, .ok newConfig) =>
    if newConfig ≠ s.prevConfig then
      match writeConfig e newConfig f.configPath with
      | (tw, some err) =>
        (t ++ [.print "Endpoints changed, writing new config\n"] ++ tw,
          .error (.panic err))
      | (tw, none) =>
        match stopCurrent s with
        | (t2, .error h) =>
          (t ++ [.print "Endpoints changed, writing new config\n"] ++ tw ++ t2, .error h)
        | (t2, .ok s1) =>
          if newConfig ≠ "" then
            match launchTwemproxy e s1.created f.twemproxyPath f.configPath with
            | (tl, .error err) =>
              (t ++ [.print "Endpoints changed, writing new config\n"] ++ tw ++ t2 ++ tl,
                .error (.panic err))
            | (tl, .ok inst) =>
              (t ++ [.print "Endpoints changed, writing new config\n"] ++ tw ++ t2 ++ tl,
                .ok { prevConfig := newConfig, currentInstance := some inst,
                      currentInstanceFinished := some inst.finished,
                      created := s1.created + 1 })
          else
            (t ++ [.print "Endpoints changed, writing new config\n"] ++ tw ++ t2,
              .ok { s1 with prevConfig := newConfig })
    else (t, .ok { s with prevConfig := newConfig })

/-- What the `select` of the loop can receive. -/
inductive Event where
  /-- The ticker fired; `e` answers the calls made during the tick. -/
  | timer (e : Env)
  /-- The goroutine of the instance with channel `ch` sends `Result{err}`. -/
  | finished (ch : Nat) (err : Option Error)

/-- The text `%v` prints for an `error`. -/
def fmtError : Option Error → String
  | none => "<nil>"
  | some err => err

/-- One iteration of the `for { select { ... } }` of `main`.  A value on a
channel other than `currentInstanceFinished` is not received: the iteration
does nothing. -/
def select (f : Flags) (s : State) : Event → List Effect × Except Halt State
  | .timer e => tick f e s
  | .finished ch err =>
    if s.currentInstanceFinished = some ch then
      ([.recv ch, .print ("twemproxy died: " ++ fmtError err)], .error .returned)
    else ([], .ok s)

/-- The loop of `main` from state `s`, over the events it meets. -/
def loop (f : Flags) : State → List Event → List Effect × Except Halt State
  | s, [] => ([], .ok s)
  | s, ev :: evs =>
    match select f s ev with
    | (t, .error h) => (t, .error h)
    | (t, .ok s1) => ((t ++ (loop f s1 evs).1), (loop f s1 evs).2)

/-- The function `main` after flag parsing and client set-up: the startup
reconciliation answered by `e0`, then the loop over `evs`. -/
def main (f : Flags) (e0 : Env) (evs : List Event) : List Effect × Except Halt State :=
  match startup f e0 with
  | (t, .error h) => (t, .error h)
  | (t, .ok s) => ((t ++ (loop f s evs).1), (loop f s evs).2)

/-- A reconciliation step: the startup (from no state) or a tick. -/
def step (f : Flags) (e : Env) : Option State → List Effect × Except Halt State
  | none => startup f e
  | some s => tick f e s

/-- The loop states `main` can be in at the head of an iteration. -/
def Reachable (f : Flags) (s : State) : Prop :=
  ∃ e0 evs, (main f e0 evs).2 = .ok s

/-- The relation between the loop variables that holds at the head of every
iteration. -/
def Inv (s : State) : Prop :=
  (s.currentInstance ≠ none ↔ s.prevConfig ≠ "") ∧
  s.currentInstanceFinished = s.currentInstance.map (fun i => i.finished) ∧
  ∀ inst, s.currentInstance = some inst → inst.cmd < s.created ∧ inst.finished < s.created

/-! ## Reading a trace of effects -/

/-- A launch of the supervised process, started or failed. -/
def Effect.isLaunch : Effect → Bool
  | .launch _ _ => true
  | .launchFailed _ _ => true
  | _ => false

/-- A call that opens (and truncates) a file or writes to one. -/
def Effect.isWrite : Effect → Bool
  | .openFile _ _ => true
  | .writeString _ _ _ => true
  | _ => false

/-- A kill, a receive from a `finished` channel or a launch, started or failed:
the effects on the supervised process. -/
def Effect.isProcess : Effect → Bool
  | .launch _ _ => true
  | .launchFailed _ _ => true
  | .kill _ => true
  | .recv _ => true
  | _ => false

/-- A persist, kill, wait or launch: anything but resolving, rendering and
printing. -/
def Effect.isAction : Effect → Bool
  | .resolve _ _ => false
  | .render _ _ => false
  | .print _ => false
  | _ => true

/-- The content of the file at `path` after the effects of a trace, from its
content `init` before (`none` when it is not known).  A successful open with
`O_CREATE|O_TRUNC` leaves the file empty and a failed one leaves it as it was;
a successful `WriteString` on the file just opened appends its argument, and a
failed one leaves the file in an unknown state.  Nothing else touches the
file. -/
def fileAfter (path : String) : Option String → List Effect → Option String
  | init, [] => init
  | init, .openFile name err :: t =>
    if name = path then
      match err with
      | none => fileAfter path (some "") t
      | some _ => fileAfter path init t
    else fileAfter path init t
  | init, .writeString name s err :: t =>
    if name = path then
      match err with
      | none => fileAfter path (init.map (fun c => c ++ s)) t
      | some _ => fileAfter path none t
    else fileAfter path init t
  | init, _ :: t => fileAfter path init t

/-- The instances that were launched and whose completion has not been received
from their `finished` channel, after the effects of a trace. -/
def alive : List TwemproxyInstance → List Effect → List TwemproxyInstance
  | l, [] => l
  | l, .launch _ inst :: t => alive (l ++ [inst]) t
  | l, .recv ch :: t => alive (l.filter (fun i => i.finished ≠ ch)) t
  | l, _ :: t => alive l t

/-- The supervision of the process as a trace shows it. -/
inductive Supervision where
  /-- No instance is owned, and none exited on its own. -/
  | idle
  /-- An instance was launched. -/
  | running (inst : TwemproxyInstance)
  /-- The owned instance was sent a kill. -/
  | killed (inst : TwemproxyInstance)
  /-- The completion of an instance that was not killed was received. -/
  | died
  deriving DecidableEq, Repr

/-- One effect, seen by the supervision discipline: a launch is allowed only
when idle, a kill only on the running instance, and a completion is received
only from the channel of the running or killed instance.  `none` is a
violation. -/
def Supervision.step (m : Supervision) : Effect → Option Supervision
  | .launch _ inst =>
    match m with
    | .idle => some (.running inst)
    | _ => none
  | .kill c =>
    match m with
    | .running inst => if c = inst.cmd then some (.killed inst) else none
    | _ => none
  | .recv ch =>
    match m with
    | .killed inst => if ch = inst.finished then some .idle else none
    | .running inst => if ch = inst.finished then some .died else none
    | _ => none
  | _ => some m

/-- The supervision discipline over a trace. -/
def Supervision.run : Supervision → List Effect → Option Supervision
  | m, [] => some m
  | m, x :: t =>
    match m.step x with
    | none => none
    | some m1 => Supervision.run m1 t

/-- The instances alive under a supervision state. -/
def Supervision.instances : Supervision → List TwemproxyInstance
  | .running inst => [inst]
  | .killed inst => [inst]
  | _ => []

/-- The supervision state that a loop state stands for. -/
def State.supervision (s : State) : Supervision :=
  match s.currentInstance with
  | none => .idle
  | some inst => .running inst

/-! ## The endpoint list as the specification describes it -/

/-- The port of a subset named by the selector: the last one, if several. -/
def namedPort (servicePortName : String) (ports : List EndpointPort) : Option Int :=
  ((ports.filter (fun p => p.Name = servicePortName)).getLast?).map (fun p => p.Port)

/-- The list of `ip:port` strings, in subset order and then address order, of
the subsets that have a port named by the selector; the others contribute
nothing. -/
def selectedEndpoints (servicePortName : String) : List EndpointSubset → List String
  | [] => []
  | subset :: rest =>
    (match namedPort servicePortName subset.Ports with
      | none => []
      | some port => subset.Addresses.map (fun a => a.IP ++ ":" ++ itoa port)) ++
    selectedEndpoints servicePortName rest

/-! ## Concrete inputs -/

/-- The default values of the flags and of the service name. -/
def defaultFlags : Flags :=
  { templatePath := "/etc/twemproxy/template.yaml"
    configPath := "/etc/twemproxy/config.yaml"
    twemproxyPath := "/usr/sbin/nutcracker"
    servicePortName := "memcached"
    serviceName := "memcached" }

/-- The template file `{{range .}}{{.}}` + newline + `{{end}}`: it prints the
endpoints one per line, in the order of the list. -/
def listTemplate : Template :=
  fun endpoints => (String.join (endpoints.map (fun x => x ++ "\n")), none)

/-- The template file `servers:` + newline + `{{index . 5}}`: it parses, and
executing it on a list of fewer than six entries writes the first line and
then fails. -/
def indexTemplate : Template :=
  fun endpoints =>
    match endpoints.get? 5 with
    | some x => ("servers:\n" ++ x, none)
    | none => ("servers:\n", some "error calling index: index out of range: 5")

/-- The template file `{{len .}}`: it prints the number of endpoints. -/
def countTemplate : Template :=
  fun endpoints => (toString endpoints.length, none)

/-- A subset whose addresses are `ips` and whose only port is `name`/`port`. -/
def subsetOf (ips : List String) (name : String) (port : Int) : EndpointSubset :=
  { Addresses := ips.map (fun ip => { IP := ip }), Ports := [{ Name := name, Port := port }] }

/-- An environment in which the cluster answers `eps`, the template file parses
to `tmpl`, and no call fails. -/
def envOf (eps : Endpoints) (tmpl : Template) : Env :=
  { getenv := fun _ => ""
    endpointsGet := fun _ _ => .ok eps
    parseFiles := fun _ => .ok tmpl
    openFile := fun _ => none
    writeString := fun _ => none
    start := fun _ => none }

/-- The endpoints `10.0.0.1:11211, 10.0.0.2:11211` in one subset. -/
def endpointsAB : Endpoints :=
  { Subsets := [subsetOf ["10.0.0.1", "10.0.0.2"] "memcached" 11211] }

/-- The same endpoints in the other order. -/
def endpointsBA : Endpoints :=
  { Subsets := [subsetOf ["10.0.0.2", "10.0.0.1"] "memcached" 11211] }

/-- A subset with the port `memcached`, followed by one that has only a port
`http`. -/
def endpointsMixed : Endpoints :=
  { Subsets := [subsetOf ["10.0.0.1"] "memcached" 11211, subsetOf ["10.0.0.9"] "http" 80] }

/-- The loop state after a startup that resolved `endpointsAB`. -/
def stateAB : State :=
  { prevConfig := "10.0.0.1:11211\n10.0.0.2:11211\n"
    currentInstance := some { cmd := 0, finished := 0 }
    currentInstanceFinished := some 0
    created := 1 }

/-- An environment in which the cluster has no endpoints and the config file
cannot be written. -/
def envDiskFull : Env :=
  { envOf { Subsets := [] } listTemplate with writeString := fun _ => some "no space left on device" }

/-- An environment that differs from `envOf endpointsBA listTemplate` in the
namespace variable and in that no file can be opened and no process started;
the cluster answers `endpointsBA` in every namespace and the template file is
the same. -/
def envQuietBA : Env :=
  { getenv := fun _ => "cache"
    endpointsGet := fun _ _ => .ok endpointsBA
    parseFiles := fun _ => .ok listTemplate
    openFile := fun _ => some "read-only file system"
    writeString := fun _ => some "no space left on device"
    start := fun _ => some "exec format error" }

/-! ## The calls of `writeConfig` and `launchTwemproxy` -/

theorem writeConfig_eq (e : Env) (content configFile : String) :
    writeConfig e content configFile =
      match e.openFile configFile with
      | some err => ([.openFile configFile (some err)], some err)
      | none =>
        ([.openFile configFile none, .writeString configFile content (e.writeString content),
          .close configFile], e.writeString content) := by
  unfold writeConfig osOpenFile fileWriteString fileClose
  cases e.openFile configFile <;> rfl

theorem writeConfig_ok {e : Env} {content configFile : String} {tw : List Effect}
    (h : writeConfig e content configFile = (tw, none)) :
    e.openFile configFile = none ∧ e.writeString content = none ∧
    tw = [.openFile configFile none, .writeString configFile content none,
          .close configFile] := by
  rw [writeConfig_eq] at h
  cases ho : e.openFile configFile with
  | some err => rw [ho] at h; simp at h
  | none =>
    rw [ho] at h
    simp only [Prod.mk.injEq] at h
    refine ⟨rfl, h.2, ?_⟩
    rw [← h.1, h.2]

theorem writeConfig_effects (e : Env) (content configFile : String) :
    ∀ x ∈ (writeConfig e content configFile).1, x.isProcess = false ∧ x.isLaunch = false := by
  intro x hx
  rw [writeConfig_eq] at hx
  cases ho : e.openFile configFile with
  | some err =>
    rw [ho] at hx
    simp at hx
    subst hx
    exact ⟨rfl, rfl⟩
  | none =>
    rw [ho] at hx
    simp at hx
    rcases hx with rfl | rfl | rfl <;> exact ⟨rfl, rfl⟩

theorem launchTwemproxy_eq (e : Env) (n : Nat) (a b : String) :
    launchTwemproxy e n a b =
      match e.start (command a b) with
      | some err => ([.launchFailed (command a b) err], .error err)
      | none => ([.launch (command a b) { cmd := n, finished := n }],
          .ok { cmd := n, finished := n }) := by
  unfold launchTwemproxy cmdStart
  cases e.start (command a b) <;> rfl

theorem launchTwemproxy_ok {e : Env} {n : Nat} {a b : String} {tl : List Effect}
    {inst : TwemproxyInstance} (h : launchTwemproxy e n a b = (tl, .ok inst)) :
    e.start (command a b) = none ∧ inst = { cmd := n, finished := n } ∧
    tl = [.launch (command a b) { cmd := n, finished := n }] := by
  rw [launchTwemproxy_eq] at h
  cases hs : e.start (command a b) with
  | some err => rw [hs] at h; simp at h
  | none =>
    rw [hs] at h
    simp only [Prod.mk.injEq, Except.ok.injEq] at h
    exact ⟨rfl, h.2.symm, h.1.symm⟩

theorem launchTwemproxy_error {e : Env} {n : Nat} {a b : String} {tl : List Effect}
    {err : Error} (h : launchTwemproxy e n a b = (tl, .error err)) :
    e.start (command a b) = some err ∧ tl = [.launchFailed (command a b) err] := by
  rw [launchTwemproxy_eq] at h
  cases hs : e.start (command a b) with
  | none => rw [hs] at h; simp at h
  | some err1 =>
    rw [hs] at h
    simp only [Prod.mk.injEq, Except.error.injEq] at h
    rw [← h.2]
    exact ⟨rfl, h.1.symm⟩

/-! ## Invariant of the loop -/

theorem startup_inv {f : Flags} {e : Env} {t : List Effect} {s : State}
    (h : startup f e = (t, .ok s)) : Inv s := by
  unfold startup at h
  split at h
  · cases h
  · split at h
    · cases h
    · split at h
      · split at h
        · cases h
        · rename_i hl
          cases h
          have := (launchTwemproxy_ok hl).2.1
          simp_all [Inv]
      · cases h
        simp_all [Inv]

theorem stopCurrent_ok {s s1 : State} {t : List Effect}
    (h : stopCurrent s = (t, .ok s1)) :
    s1 = { s with currentInstance := none, currentInstanceFinished := none } ∨
      (s.currentInstance = none ∧ s1 = s) := by
  unfold stopCurrent at h
  split at h
  · split at h
    · cases h; exact Or.inl rfl
    · cases h
  · cases h; exact Or.inr ⟨by assumption, rfl⟩

theorem tick_inv {f : Flags} {e : Env} {t : List Effect} {s s1 : State}
    (hs : Inv s) (h : tick f e s = (t, .ok s1)) : Inv s1 := by
  rcases hg : getConfig f e with ⟨t0, msg | doc⟩
  · simp [tick, hg] at h
  · by_cases hd : doc = s.prevConfig
    · simp [tick, hg, hd] at h
      rw [← h.2]; exact hs
    · simp only [tick, hg, ne_eq, hd, not_false_eq_true, if_true] at h
      split at h
      · cases h
      · split at h
        · cases h
        · rename_i hstop
          split at h
          · split at h
            · cases h
            · rename_i hl
              cases h
              have := (launchTwemproxy_ok hl).2.1
              simp_all [Inv]
          · cases h
            rcases stopCurrent_ok hstop with h1 | ⟨h1, h2⟩
            · subst h1; simp_all [Inv]
            · subst h2; simp_all [Inv]

theorem select_inv {f : Flags} {ev : Event} {t : List Effect} {s s1 : State}
    (hs : Inv s) (h : select f s ev = (t, .ok s1)) : Inv s1 := by
  cases ev with
  | timer e => exact tick_inv hs h
  | finished ch err =>
    simp only [select] at h
    split at h
    · cases h
    · cases h; exact hs

theorem loop_inv {f : Flags} (evs : List Event) : ∀ {s s1 : State},
    Inv s → (loop f s evs).2 = .ok s1 → Inv s1 := by
  induction evs with
  | nil => intro s s1 hs h; cases h; exact hs
  | cons ev evs ih =>
    intro s s1 hs h
    unfold loop at h
    split at h
    · cases h
    · rename_i hsel
      exact ih (select_inv hs hsel) h

theorem reachable_inv {f : Flags} {s : State} (h : Reachable f s) : Inv s := by
  obtain ⟨e0, evs, h⟩ := h
  unfold main at h
  split at h
  · cases h
  · rename_i hst
    exact loop_inv evs (startup_inv hst) h

/-! ## `getEndpoints` -/

theorem toDigits_ne_nil (n : Nat) : Nat.toDigits 10 n ≠ [] := by
  intro h
  have hlen : (Nat.toDigits 10 n).length = 0 := by rw [h]; rfl
  unfold Nat.toDigits Nat.toDigitsCore at hlen
  simp only at hlen
  split at hlen
  · simp at hlen
  · rw [Nat.toDigitsCore_lens_eq] at hlen
    omega

theorem repr_ne_empty (n : Nat) : Nat.repr n ≠ "" := by
  intro h
  have h1 : (Nat.repr n).data = [] := by rw [h]
  exact toDigits_ne_nil n (by simpa [Nat.repr, List.asString] using h1)

theorem itoa_ne_empty (n : Int) : itoa n ≠ "" := by
  unfold itoa
  split
  · intro h
    have h1 : ("-" ++ Nat.repr n.natAbs).length = 0 := by rw [h]; rfl
    rw [String.length_append] at h1
    have : ("-" : String).length = 1 := rfl
    omega
  · exact repr_ne_empty _

theorem portLoop_eq (name : String) (ports : List EndpointPort) : ∀ init : String,
    portLoop name ports init =
      match namedPort name ports with
      | some port => itoa port
      | none => init := by
  induction ports with
  | nil => intro init; rfl
  | cons p ps ih =>
    intro init
    unfold portLoop
    by_cases hp : p.Name = name
    · rw [if_pos hp, ih]
      cases hq : namedPort name ps with
      | none =>
        have : namedPort name (p :: ps) = some p.Port := by
          simp only [namedPort, Option.map_eq_none'] at hq ⊢
          simp [List.filter_cons, hp, List.getLast?_cons, hq]
        rw [this]
      | some q =>
        have : namedPort name (p :: ps) = some q := by
          simp only [namedPort, Option.map_eq_some'] at hq ⊢
          obtain ⟨a, ha, hq⟩ := hq
          exact ⟨a, by simp [List.filter_cons, hp, List.getLast?_cons, ha], hq⟩
        rw [this]
    · rw [if_neg hp, ih]
      have : namedPort name (p :: ps) = namedPort name ps := by
        simp [namedPort, List.filter_cons, hp]
      rw [this]

theorem addressLoop_eq (port : String) (addrs : List EndpointAddress) : ∀ res : List String,
    addressLoop port addrs res = res ++ addrs.map (fun a => a.IP ++ ":" ++ port) := by
  induction addrs with
  | nil => intro res; simp [addressLoop]
  | cons a rest ih => intro res; simp [addressLoop, ih]

theorem namedPort_isSome {name : String} {ports : List EndpointPort}
    (h : ∃ p ∈ ports, p.Name = name) : ∃ port, namedPort name ports = some port := by
  obtain ⟨p, hp, hn⟩ := h
  have hmem : p ∈ ports.filter (fun p => p.Name = name) := by
    simp [List.mem_filter, hp, hn]
  cases hl : (ports.filter (fun p => decide (p.Name = name))).getLast? with
  | none =>
    rw [List.getLast?_eq_none_iff] at hl
    rw [hl] at hmem
    cases hmem
  | some q => exact ⟨q.Port, by simp [namedPort, hl]⟩

theorem subsetLoop_eq (name : String) (subsets : List EndpointSubset)
    (h : ∀ subset ∈ subsets, ∃ p ∈ subset.Ports, p.Name = name) : ∀ res : List String,
    subsetLoop name none subsets res = (res ++ selectedEndpoints name subsets, none) := by
  induction subsets with
  | nil => intro res; simp [subsetLoop, selectedEndpoints]
  | cons subset rest ih =>
    intro res
    obtain ⟨port, hport⟩ := namedPort_isSome (h subset (List.mem_cons_self _ _))
    have hrest := ih (fun x hx => h x (List.mem_cons_of_mem _ hx))
    simp only [subsetLoop, selectedEndpoints, portLoop_eq, hport, itoa_ne_empty, if_false,
      addressLoop_eq, hrest, List.append_assoc]

/-- C9, as stated, fails: on a subset with the port `memcached` followed by a
subset without it, `getEndpoints` returns the empty list (and a nil error),
not the entry `10.0.0.1:11211` of the first subset. -/
theorem getEndpoints_drops_earlier_subsets :
    getEndpoints "memcached" (.ok endpointsMixed) = ([], none) ∧
    selectedEndpoints "memcached" endpointsMixed.Subsets = ["10.0.0.1:11211"] := by
  decide

/-- C9, amended: when every subset of the endpoints object has a port named by
the selector, `getEndpoints` succeeds and returns exactly the `ip:port`
strings, in subset order and then address order, where port is the decimal
rendering of the subset's (last) port of that name. -/
theorem getEndpoints_all_named (name : String) (eps : Endpoints)
    (h : ∀ subset ∈ eps.Subsets, ∃ p ∈ subset.Ports, p.Name = name) :
    getEndpoints name (.ok eps) = (selectedEndpoints name eps.Subsets, none) := by
  simp [getEndpoints, subsetLoop_eq name eps.Subsets h]

/-- The amended C9 on the endpoints object `endpointsAB`. -/
theorem getEndpoints_all_named_witness :
    (∀ subset ∈ endpointsAB.Subsets, ∃ p ∈ subset.Ports, p.Name = "memcached") ∧
    getEndpoints "memcached" (.ok endpointsAB) =
      (selectedEndpoints "memcached" endpointsAB.Subsets, none) :=
  ⟨by decide, getEndpoints_all_named "memcached" endpointsAB (by decide)⟩

/-! ## The loop -/

/-- The state after a startup that resolved `endpointsAB` is reachable. -/
theorem reachable_stateAB : Reachable defaultFlags stateAB :=
  ⟨envOf endpointsAB listTemplate, [], rfl⟩

/-- C10: at the head of every loop iteration an instance is owned exactly when
the last-applied document is not empty, the channel the select listens on is
the `finished` channel of the owned instance (nil when none is owned), and so
a completion received by the select comes from the owned instance. -/
theorem loop_head_invariant (f : Flags) (s : State) (h : Reachable f s) :
    (s.currentInstance ≠ none ↔ s.prevConfig ≠ "") ∧
    s.currentInstanceFinished = s.currentInstance.map (fun i => i.finished) ∧
    ∀ ch err ch1, Effect.recv ch1 ∈ (select f s (.finished ch err)).1 →
      ch1 = ch ∧ ∃ inst, s.currentInstance = some inst ∧ inst.finished = ch := by
  obtain ⟨h1, h2, _⟩ := reachable_inv h
  refine ⟨h1, h2, ?_⟩
  intro ch err ch1 hmem
  simp only [select] at hmem
  split at hmem
  · rename_i hch
    simp at hmem
    subst hmem
    rw [h2] at hch
    simpa using hch
  · simp at hmem

/-- The invariant of C10 on the state after a startup that launched instance 0. -/
theorem loop_head_invariant_witness :
    Reachable defaultFlags stateAB ∧
    ((stateAB.currentInstance ≠ none ↔ stateAB.prevConfig ≠ "") ∧
    stateAB.currentInstanceFinished = stateAB.currentInstance.map (fun i => i.finished) ∧
    ∀ ch err ch1, Effect.recv ch1 ∈ (select defaultFlags stateAB (.finished ch err)).1 →
      ch1 = ch ∧ ∃ inst, stateAB.currentInstance = some inst ∧ inst.finished = ch) :=
  ⟨reachable_stateAB, loop_head_invariant defaultFlags stateAB reachable_stateAB⟩

/-- C5, as stated, fails: after a startup that launched instance 0, the select
receives the completion of instance 0; `main` returns, which is exit status 0,
not a non-zero status. -/
theorem death_event_exit_status_zero :
    main defaultFlags (envOf endpointsAB listTemplate) [.finished 0 (some "exit status 1")] =
      ([.resolve "default" "memcached",
        .render "/etc/twemproxy/template.yaml" ["10.0.0.1:11211", "10.0.0.2:11211"],
        .openFile "/etc/twemproxy/config.yaml" none,
        .writeString "/etc/twemproxy/config.yaml" "10.0.0.1:11211\n10.0.0.2:11211\n" none,
        .close "/etc/twemproxy/config.yaml",
        .launch ["/usr/sbin/nutcracker", "-v", "11", "-c", "/etc/twemproxy/config.yaml"]
          { cmd := 0, finished := 0 },
        .recv 0,
        .print "twemproxy died: exit status 1"],
       .error .returned) ∧
    Halt.returned.exitStatus = some 0 := by
  constructor <;> rfl

/-- C5, amended: when the select receives the completion event of the
owned instance, the loop prints the cause and `main` returns (exit status 0);
no later event is handled and nothing is launched. -/
theorem death_event_returns (f : Flags) (s : State) (ch : Nat) (err : Option Error)
    (evs : List Event) (h : s.currentInstanceFinished = some ch) :
    loop f s (.finished ch err :: evs) =
      ([.recv ch, .print ("twemproxy died: " ++ fmtError err)], .error .returned) ∧
    Halt.returned.exitStatus = some 0 ∧
    ∀ x ∈ (loop f s (.finished ch err :: evs)).1, x.isLaunch = false := by
  have hl : loop f s (.finished ch err :: evs) =
      ([.recv ch, .print ("twemproxy died: " ++ fmtError err)], .error .returned) := by
    simp [loop, select, h]
  refine ⟨hl, rfl, ?_⟩
  rw [hl]
  intro x hx
  simp at hx
  rcases hx with rfl | rfl <;> rfl

/-- The amended C5 when instance 0 is owned and its completion arrives before a tick. -/
theorem death_event_returns_witness :
    stateAB.currentInstanceFinished = some 0 ∧
    (loop defaultFlags stateAB
        (.finished 0 none :: [.timer (envOf endpointsBA listTemplate)]) =
      ([.recv 0, .print ("twemproxy died: " ++ fmtError none)], .error .returned) ∧
    Halt.returned.exitStatus = some 0 ∧
    ∀ x ∈ (loop defaultFlags stateAB
        (.finished 0 none :: [.timer (envOf endpointsBA listTemplate)])).1,
      x.isLaunch = false) :=
  ⟨rfl, death_event_returns defaultFlags stateAB 0 none
    [.timer (envOf endpointsBA listTemplate)] rfl⟩

/-! ## Reconciliation steps -/

theorem getConfig_effects (f : Flags) (e : Env) :
    ∀ x ∈ (getConfig f e).1, x.isAction = false := by
  intro x hx
  unfold getConfig at hx
  split at hx
  · simp at hx; subst hx; rfl
  · split at hx
    · simp at hx; subst hx; rfl
    · split at hx <;>
      · simp at hx
        rcases hx with rfl | rfl <;> rfl

theorem getConfig_of_empty {f : Flags} {e : Env} (h : resolve f e = ([], none)) :
    getConfig f e = ([.resolve (namespaceOf e) f.serviceName], .ok "") := by
  simp [getConfig, h]

theorem getConfig_snd_congr {f : Flags} {e1 e2 : Env} {doc : String}
    (hres : resolve f e2 = resolve f e1)
    (hfile : e2.parseFiles f.templatePath = e1.parseFiles f.templatePath)
    (h : (getConfig f e1).2 = .ok doc) : (getConfig f e2).2 = .ok doc := by
  unfold getConfig at h ⊢
  rw [hres]
  unfold applyTemplate at h ⊢
  rw [hfile]
  split at h
  · simp at h
  · split at h
    · rw [if_pos (by assumption)]; exact h
    · rw [if_neg (by assumption)]
      split at h
      · simp at h
      · exact h

theorem tick_ok_prevConfig {f : Flags} {e : Env} {s s1 : State} {t : List Effect}
    (h : tick f e s = (t, .ok s1)) : (getConfig f e).2 = .ok s1.prevConfig := by
  rcases hg : getConfig f e with ⟨t0, msg | doc⟩
  · simp [tick, hg] at h
  · by_cases hd : doc = s.prevConfig
    · simp [tick, hg, hd] at h
      rw [← h.2]
      simp [hd]
    · simp only [tick, hg, ne_eq, hd, not_false_eq_true, if_true] at h
      split at h
      · cases h
      · split at h
        · cases h
        · split at h
          · split at h
            · cases h
            · cases h; rfl
          · cases h; rfl

theorem tick_of_unchanged {f : Flags} {e : Env} {s : State} {t : List Effect}
    (h : getConfig f e = (t, .ok s.prevConfig)) : tick f e s = (t, .ok s) := by
  simp [tick, h]

/-- C3, as stated, fails: a tick resolves `endpointsAB` with the template that
lists the endpoints and leaves the state as it is; the next tick resolves the
same endpoint list, but the template file now holds the template that counts
them: `applyTemplate` parses the file again, the document differs, and the
tick writes it, kills instance 0, receives its completion and launches the
new instance 1. -/
theorem same_endpoints_changed_template :
    tick defaultFlags (envOf endpointsAB listTemplate) stateAB =
      ([.resolve "default" "memcached",
        .render "/etc/twemproxy/template.yaml" ["10.0.0.1:11211", "10.0.0.2:11211"]],
       .ok stateAB) ∧
    resolve defaultFlags (envOf endpointsAB countTemplate) =
      resolve defaultFlags (envOf endpointsAB listTemplate) ∧
    tick defaultFlags (envOf endpointsAB countTemplate) stateAB =
      ([.resolve "default" "memcached",
        .render "/etc/twemproxy/template.yaml" ["10.0.0.1:11211", "10.0.0.2:11211"],
        .print "Endpoints changed, writing new config\n",
        .openFile "/etc/twemproxy/config.yaml" none,
        .writeString "/etc/twemproxy/config.yaml" "2" none,
        .close "/etc/twemproxy/config.yaml",
        .kill 0, .recv 0,
        .launch ["/usr/sbin/nutcracker", "-v", "11", "-c", "/etc/twemproxy/config.yaml"]
          { cmd := 1, finished := 1 }],
       .ok { prevConfig := "2", currentInstance := some { cmd := 1, finished := 1 },
             currentInstanceFinished := some 1, created := 2 }) := by
  refine ⟨rfl, rfl, rfl⟩

/-- C3, amended: a tick whose resolved and rendered document equals the
last-applied document makes no persist, kill, wait or launch and leaves the
loop state as it was; and when two consecutive ticks resolve the same endpoint
list and the template file parses to the same template at both, the second
renders the same document and performs none of these actions. -/
theorem unchanged_document_no_action (f : Flags) :
    (∀ e s t, getConfig f e = (t, .ok s.prevConfig) →
      tick f e s = (t, .ok s) ∧ ∀ x ∈ t, x.isAction = false) ∧
    (∀ e1 e2 s s1 t1, tick f e1 s = (t1, .ok s1) →
      resolve f e2 = resolve f e1 →
      e2.parseFiles f.templatePath = e1.parseFiles f.templatePath →
      (getConfig f e2).2 = (getConfig f e1).2 ∧
      (tick f e2 s1).2 = .ok s1 ∧
      ∀ x ∈ (tick f e2 s1).1, x.isAction = false) := by
  constructor
  · intro e s t h
    refine ⟨tick_of_unchanged h, ?_⟩
    have := getConfig_effects f e
    rw [h] at this
    exact this
  · intro e1 e2 s s1 t1 h1 hres hfile
    have hd1 := tick_ok_prevConfig h1
    have hd2 := getConfig_snd_congr hres hfile hd1
    have ht : tick f e2 s1 = ((getConfig f e2).1, .ok s1) :=
      tick_of_unchanged (Prod.ext rfl hd2)
    refine ⟨by rw [hd1, hd2], by rw [ht], ?_⟩
    rw [ht]
    exact getConfig_effects f e2

/-- Both parts of the amended C3 on concrete ticks: a tick that resolves the
endpoints of the last-applied document; and a tick that replaces the document,
followed by a tick in another environment (another namespace variable, a disk
that is full, a binary that would not start) that resolves the same list with
the same template. -/
theorem unchanged_document_no_action_witness :
    (tick defaultFlags (envOf endpointsAB listTemplate) stateAB =
        ([.resolve "default" "memcached",
          .render "/etc/twemproxy/template.yaml" ["10.0.0.1:11211", "10.0.0.2:11211"]],
         .ok stateAB) ∧
      ∀ x ∈ [Effect.resolve "default" "memcached",
          Effect.render "/etc/twemproxy/template.yaml" ["10.0.0.1:11211", "10.0.0.2:11211"]],
        x.isAction = false) ∧
    ((getConfig defaultFlags envQuietBA).2 =
        (getConfig defaultFlags (envOf endpointsBA listTemplate)).2 ∧
      (tick defaultFlags envQuietBA
        { prevConfig := "10.0.0.2:11211\n10.0.0.1:11211\n",
          currentInstance := some { cmd := 1, finished := 1 },
          currentInstanceFinished := some 1, created := 2 }).2 =
        .ok { prevConfig := "10.0.0.2:11211\n10.0.0.1:11211\n",
              currentInstance := some { cmd := 1, finished := 1 },
              currentInstanceFinished := some 1, created := 2 } ∧
      ∀ x ∈ (tick defaultFlags envQuietBA
        { prevConfig := "10.0.0.2:11211\n10.0.0.1:11211\n",
          currentInstance := some { cmd := 1, finished := 1 },
          currentInstanceFinished := some 1, created := 2 }).1, x.isAction = false) :=
  ⟨(unchanged_document_no_action defaultFlags).1 (envOf endpointsAB listTemplate) stateAB _ rfl,
   (unchanged_document_no_action defaultFlags).2 (envOf endpointsBA listTemplate)
     envQuietBA stateAB _ _ rfl rfl rfl⟩

/-! ## The config file after a trace -/

theorem not_action {x : Effect} (h : x.isAction = false) :
    x.isLaunch = false ∧ x.isWrite = false ∧ x.isProcess = false := by
  cases x <;> simp_all [Effect.isAction, Effect.isLaunch, Effect.isWrite, Effect.isProcess]

theorem fileAfter_append (path : String) (a b : List Effect) : ∀ init : Option String,
    fileAfter path init (a ++ b) = fileAfter path (fileAfter path init a) b := by
  induction a with
  | nil => intro init; rfl
  | cons x a ih =>
    intro init
    cases x with
    | openFile name err =>
      simp only [List.cons_append, fileAfter]
      split
      · cases err <;> exact ih _
      · exact ih _
    | writeString name c err =>
      simp only [List.cons_append, fileAfter]
      split
      · cases err <;> exact ih _
      · exact ih _
    | _ => simp only [List.cons_append, fileAfter]; exact ih _

theorem fileAfter_no_write (path : String) (t : List Effect)
    (h : ∀ y ∈ t, y.isWrite = false) : ∀ init : Option String,
    fileAfter path init t = init := by
  induction t with
  | nil => intro init; rfl
  | cons x t ih =>
    intro init
    have hx := h x (List.mem_cons_self _ _)
    have ht := ih (fun y hy => h y (List.mem_cons_of_mem _ hy))
    cases x with
    | openFile name err => simp [Effect.isWrite] at hx
    | writeString name c err => simp [Effect.isWrite] at hx
    | _ => simp only [fileAfter]; exact ht _

theorem fileAfter_written (path doc : String) (before mid : List Effect)
    (h : ∀ y ∈ mid, y.isWrite = false) (init : Option String) :
    fileAfter path init
      (before ++ .openFile path none :: .writeString path doc none :: mid) = some doc := by
  rw [fileAfter_append]
  simp only [fileAfter, if_true, Option.map_some', String.empty_append]
  exact fileAfter_no_write path mid h _

/-- C1: from a reachable loop state with last-applied document `D1`, a tick
that resolves and renders `D2 ≠ D1`, with no call failing (the open and the
write of the config file, and the start of the process when `D2` is not
empty), opens the config path once and writes `D2` to it once, so that the file
holds `D2`, and changes the process exactly once, in one of three shapes: kill
the owned instance, receive its completion and start a new one (`D1` and `D2`
not empty); start from none (`D1` empty); kill and receive with no start (`D2`
empty).  Afterwards the last-applied document is `D2`. -/
theorem changed_document_one_transition (f : Flags) (e : Env) (s : State)
    (t0 : List Effect) (D2 : String)
    (hs : Reachable f s) (hg : getConfig f e = (t0, .ok D2)) (hne : D2 ≠ s.prevConfig)
    (ho : e.openFile f.configPath = none) (hw : e.writeString D2 = none)
    (hl : D2 ≠ "" → e.start (command f.twemproxyPath f.configPath) = none) :
    ∃ acts s1,
      tick f e s =
        (t0 ++ [.print "Endpoints changed, writing new config\n",
                .openFile f.configPath none, .writeString f.configPath D2 none,
                .close f.configPath] ++ acts, .ok s1) ∧
      s1.prevConfig = D2 ∧
      (∀ x ∈ t0, x.isAction = false) ∧
      (∀ init, fileAfter f.configPath init (tick f e s).1 = some D2) ∧
      ((s.prevConfig ≠ "" ∧ D2 ≠ "" ∧ ∃ old new, s.currentInstance = some old ∧
          acts = [.kill old.cmd, .recv old.finished,
                  .launch (command f.twemproxyPath f.configPath) new] ∧
          s1.currentInstance = some new ∧ new.cmd ≠ old.cmd ∧ new.finished ≠ old.finished) ∨
       (s.prevConfig = "" ∧ D2 ≠ "" ∧ ∃ new, s.currentInstance = none ∧
          acts = [.launch (command f.twemproxyPath f.configPath) new] ∧
          s1.currentInstance = some new) ∨
       (s.prevConfig ≠ "" ∧ D2 = "" ∧ ∃ old, s.currentInstance = some old ∧
          acts = [.kill old.cmd, .recv old.finished] ∧ s1.currentInstance = none)) := by
  obtain ⟨h1, h2, h3⟩ := reachable_inv hs
  have hact : ∀ x ∈ t0, x.isAction = false := by
    have := getConfig_effects f e
    rw [hg] at this
    exact this
  have hwc : writeConfig e D2 f.configPath =
      ([.openFile f.configPath none, .writeString f.configPath D2 none,
        .close f.configPath], none) := by
    simp [writeConfig, osOpenFile, fileWriteString, fileClose, ho, hw]
  have hfile : ∀ (acts : List Effect) (r : Except Halt State),
      (∀ y ∈ acts, y.isWrite = false) →
      tick f e s =
        (t0 ++ [.print "Endpoints changed, writing new config\n",
                .openFile f.configPath none, .writeString f.configPath D2 none,
                .close f.configPath] ++ acts, r) →
      ∀ init, fileAfter f.configPath init (tick f e s).1 = some D2 := by
    intro acts r hacts ht init
    rw [ht]
    have hshape : t0 ++ [Effect.print "Endpoints changed, writing new config\n",
          .openFile f.configPath none, .writeString f.configPath D2 none,
          .close f.configPath] ++ acts =
        (t0 ++ [Effect.print "Endpoints changed, writing new config\n"]) ++
          .openFile f.configPath none :: .writeString f.configPath D2 none ::
            (.close f.configPath :: acts) := by simp
    simp only
    rw [hshape]
    apply fileAfter_written
    intro y hy
    simp at hy
    rcases hy with rfl | hy
    · rfl
    · exact hacts y hy
  cases hi : s.currentInstance with
  | none =>
    have hprev : s.prevConfig = "" := by
      by_contra hc
      exact (h1.mpr hc) hi
    have hD2 : D2 ≠ "" := by rw [hprev] at hne; exact hne
    have hch : s.currentInstanceFinished = none := by rw [h2, hi]; rfl
    have ht : tick f e s =
        (t0 ++ [.print "Endpoints changed, writing new config\n",
                .openFile f.configPath none, .writeString f.configPath D2 none,
                .close f.configPath] ++
          [.launch (command f.twemproxyPath f.configPath)
            { cmd := s.created, finished := s.created }],
         .ok { prevConfig := D2,
               currentInstance := some { cmd := s.created, finished := s.created },
               currentInstanceFinished := some s.created, created := s.created + 1 }) := by
      simp [tick, hg, hne, hwc, stopCurrent, hi, hD2, launchTwemproxy, cmdStart, hl hD2]
    refine ⟨_, _, ht, rfl, hact, hfile _ _ ?_ ht,
      Or.inr (Or.inl ⟨hprev, hD2, _, rfl, rfl, rfl⟩)⟩
    intro y hy
    simp at hy
    subst hy
    rfl
  | some old =>
    have hprev : s.prevConfig ≠ "" := h1.mp (by rw [hi]; simp)
    have hch : s.currentInstanceFinished = some old.finished := by rw [h2, hi]; rfl
    obtain ⟨hc1, hc2⟩ := h3 old hi
    by_cases hD2 : D2 = ""
    · subst hD2
      have ht : tick f e s =
          (t0 ++ [.print "Endpoints changed, writing new config\n",
                  .openFile f.configPath none, .writeString f.configPath "" none,
                  .close f.configPath] ++ [.kill old.cmd, .recv old.finished],
           .ok { prevConfig := "", currentInstance := none, currentInstanceFinished := none,
                 created := s.created }) := by
        simp [tick, hg, hne, hwc, stopCurrent, hi, hch]
      refine ⟨_, _, ht, rfl, hact, hfile _ _ ?_ ht,
        Or.inr (Or.inr ⟨hprev, rfl, old, rfl, rfl, rfl⟩)⟩
      intro y hy
      simp at hy
      rcases hy with rfl | rfl <;> rfl
    · have ht : tick f e s =
          (t0 ++ [.print "Endpoints changed, writing new config\n",
                  .openFile f.configPath none, .writeString f.configPath D2 none,
                  .close f.configPath] ++
            [.kill old.cmd, .recv old.finished,
             .launch (command f.twemproxyPath f.configPath)
               { cmd := s.created, finished := s.created }],
           .ok { prevConfig := D2,
                 currentInstance := some { cmd := s.created, finished := s.created },
                 currentInstanceFinished := some s.created, created := s.created + 1 }) := by
        simp [tick, hg, hne, hwc, stopCurrent, hi, hch, hD2, launchTwemproxy, cmdStart, hl hD2]
      refine ⟨_, _, ht, rfl, hact, hfile _ _ ?_ ht,
        Or.inl ⟨hprev, hD2, old, _, rfl, rfl, rfl, ?_, ?_⟩⟩
      · intro y hy
        simp at hy
        rcases hy with rfl | rfl | rfl <;> rfl
      · simp only; omega
      · simp only; omega

/-- The theorem of C1 on a tick that resolves the endpoints in the other order
while instance 0 is owned. -/
theorem changed_document_one_transition_witness :
    Reachable defaultFlags stateAB ∧
    "10.0.0.2:11211\n10.0.0.1:11211\n" ≠ stateAB.prevConfig ∧
    ∃ acts s1,
      tick defaultFlags (envOf endpointsBA listTemplate) stateAB =
        ([.resolve "default" "memcached",
          .render "/etc/twemproxy/template.yaml" ["10.0.0.2:11211", "10.0.0.1:11211"]] ++
         [.print "Endpoints changed, writing new config\n",
          .openFile "/etc/twemproxy/config.yaml" none,
          .writeString "/etc/twemproxy/config.yaml" "10.0.0.2:11211\n10.0.0.1:11211\n" none,
          .close "/etc/twemproxy/config.yaml"] ++ acts,
         .ok s1) ∧
      s1.prevConfig = "10.0.0.2:11211\n10.0.0.1:11211\n" ∧
      ∀ init, fileAfter "/etc/twemproxy/config.yaml" init
        (tick defaultFlags (envOf endpointsBA listTemplate) stateAB).1 =
          some "10.0.0.2:11211\n10.0.0.1:11211\n" :=
  ⟨reachable_stateAB, by decide,
    match changed_document_one_transition defaultFlags (envOf endpointsBA listTemplate) stateAB
      [.resolve "default" "memcached",
        .render "/etc/twemproxy/template.yaml" ["10.0.0.2:11211", "10.0.0.1:11211"]]
      "10.0.0.2:11211\n10.0.0.1:11211\n" reachable_stateAB rfl (by decide) rfl rfl
      (fun _ => rfl) with
    | ⟨acts, s1, h, hp, _, hf, _⟩ => ⟨acts, s1, h, hp, hf⟩⟩

/-- C4, as stated, fails: instance 0 is owned, the tick resolves the empty
list, and the write of the empty document fails; the tick panics after the
failed write, so the instance is neither killed nor awaited. -/
theorem empty_resolve_failed_write_no_kill :
    (main defaultFlags (envOf endpointsAB listTemplate) []).2 = .ok stateAB ∧
    stateAB.currentInstance = some { cmd := 0, finished := 0 } ∧
    resolve defaultFlags envDiskFull = ([], none) ∧
    tick defaultFlags envDiskFull stateAB =
      ([.resolve "default" "memcached",
        .print "Endpoints changed, writing new config\n",
        .openFile "/etc/twemproxy/config.yaml" none,
        .writeString "/etc/twemproxy/config.yaml" "" (some "no space left on device"),
        .close "/etc/twemproxy/config.yaml"],
       .error (.panic "no space left on device")) := by
  refine ⟨rfl, rfl, rfl, rfl⟩

/-- C4, amended: when resolve returns the empty list, `getConfig` yields the
empty document without calling the renderer, and the reconciliation (startup
or tick) launches no process and, if it completes, ends with no instance
owned.  If an instance was owned before the tick: when the config file is
opened and the empty document written without error, that owned instance is
killed, its completion is received, and no instance is owned afterwards; when
the open or the write fails, the tick panics as soon as `writeConfig` has
returned and makes no kill and no receive. -/
theorem empty_resolve_stops_process (f : Flags) (e : Env)
    (h : resolve f e = ([], none)) :
    getConfig f e = ([.resolve (namespaceOf e) f.serviceName], .ok "") ∧
    (∀ x ∈ (startup f e).1, x.isLaunch = false) ∧
    (∀ s1, (startup f e).2 = .ok s1 → s1.currentInstance = none) ∧
    ∀ s, Reachable f s →
      (∀ x ∈ (tick f e s).1, x.isLaunch = false) ∧
      (∀ s1, (tick f e s).2 = .ok s1 → s1.currentInstance = none) ∧
      ∀ inst, s.currentInstance = some inst →
        (e.openFile f.configPath = none → e.writeString "" = none →
          tick f e s =
            ([.resolve (namespaceOf e) f.serviceName,
              .print "Endpoints changed, writing new config\n",
              .openFile f.configPath none, .writeString f.configPath "" none,
              .close f.configPath, .kill inst.cmd, .recv inst.finished],
             .ok { prevConfig := "", currentInstance := none,
                   currentInstanceFinished := none, created := s.created })) ∧
        (∀ err, e.openFile f.configPath = some err →
          tick f e s =
            ([.resolve (namespaceOf e) f.serviceName,
              .print "Endpoints changed, writing new config\n",
              .openFile f.configPath (some err)],
             .error (.panic err))) ∧
        (∀ err, e.openFile f.configPath = none → e.writeString "" = some err →
          tick f e s =
            ([.resolve (namespaceOf e) f.serviceName,
              .print "Endpoints changed, writing new config\n",
              .openFile f.configPath none, .writeString f.configPath "" (some err),
              .close f.configPath],
             .error (.panic err))) := by
  have hg := getConfig_of_empty h
  have hwl := writeConfig_effects e "" f.configPath
  refine ⟨hg, ?_, ?_, ?_⟩
  · intro x hx
    rcases hwc : writeConfig e "" f.configPath with ⟨tw, err | _⟩
    · rw [hwc] at hwl
      simp [startup, hg, hwc] at hx
      rcases hx with rfl | hx | rfl
      · rfl
      · exact (hwl x hx).2
      · rfl
    · rw [hwc] at hwl
      simp [startup, hg, hwc] at hx
      rcases hx with rfl | hx
      · rfl
      · exact (hwl x hx).2
  · intro s1 hs1
    rcases hwc : writeConfig e "" f.configPath with ⟨tw, err | _⟩
    · simp [startup, hg, hwc] at hs1
      rw [← hs1]
    · simp [startup, hg, hwc] at hs1
  · intro s hs
    obtain ⟨h1, h2, _⟩ := reachable_inv hs
    cases hi : s.currentInstance with
    | none =>
      have hprev : s.prevConfig = "" := by
        by_contra hc
        exact (h1.mpr hc) hi
      have ht : tick f e s = ([.resolve (namespaceOf e) f.serviceName], .ok s) :=
        tick_of_unchanged (by rw [hg, hprev])
      refine ⟨?_, ?_, ?_⟩
      · intro x hx
        rw [ht] at hx
        simp at hx
        subst hx
        rfl
      · intro s1 hs1
        rw [ht] at hs1
        simp at hs1
        rw [← hs1]
        exact hi
      · intro inst hinst
        cases hinst
    | some old =>
      have hprev : "" ≠ s.prevConfig := fun hc => h1.mp (by rw [hi]; simp) hc.symm
      have hch : s.currentInstanceFinished = some old.finished := by rw [h2, hi]; rfl
      have hopen : ∀ err, e.openFile f.configPath = some err →
          tick f e s =
            ([.resolve (namespaceOf e) f.serviceName,
              .print "Endpoints changed, writing new config\n",
              .openFile f.configPath (some err)],
             .error (.panic err)) := by
        intro err ho
        simp [tick, hg, hprev, writeConfig_eq, ho]
      have hwrite : ∀ err, e.openFile f.configPath = none → e.writeString "" = some err →
          tick f e s =
            ([.resolve (namespaceOf e) f.serviceName,
              .print "Endpoints changed, writing new config\n",
              .openFile f.configPath none, .writeString f.configPath "" (some err),
              .close f.configPath],
             .error (.panic err)) := by
        intro err ho hw
        simp [tick, hg, hprev, writeConfig_eq, ho, hw]
      have hgood : e.openFile f.configPath = none → e.writeString "" = none →
          tick f e s =
            ([.resolve (namespaceOf e) f.serviceName,
              .print "Endpoints changed, writing new config\n",
              .openFile f.configPath none, .writeString f.configPath "" none,
              .close f.configPath, .kill old.cmd, .recv old.finished],
             .ok { prevConfig := "", currentInstance := none,
                   currentInstanceFinished := none, created := s.created }) := by
        intro ho hw
        simp [tick, hg, hprev, writeConfig_eq, ho, hw, stopCurrent, hi, hch]
      have ht : ∃ t r, tick f e s = (t, r) ∧ (∀ x ∈ t, x.isLaunch = false) ∧
          ∀ s1, r = .ok s1 → s1.currentInstance = none := by
        cases ho : e.openFile f.configPath with
        | some err =>
          refine ⟨_, _, hopen err ho, ?_, ?_⟩
          · intro x hx
            simp at hx
            rcases hx with rfl | rfl | rfl <;> rfl
          · intro s1 hs1
            cases hs1
        | none =>
          cases hw : e.writeString "" with
          | some err =>
            refine ⟨_, _, hwrite err ho hw, ?_, ?_⟩
            · intro x hx
              simp at hx
              rcases hx with rfl | rfl | rfl | rfl | rfl <;> rfl
            · intro s1 hs1
              cases hs1
          | none =>
            refine ⟨_, _, hgood ho hw, ?_, ?_⟩
            · intro x hx
              simp at hx
              rcases hx with rfl | rfl | rfl | rfl | rfl | rfl | rfl <;> rfl
            · intro s1 hs1
              cases hs1
              rfl
      obtain ⟨t, r, htr, hno, hnone⟩ := ht
      refine ⟨by rw [htr]; exact hno, by rw [htr]; exact hnone, ?_⟩
      intro inst hinst
      cases hinst
      exact ⟨hgood, hopen, hwrite⟩

/-- The amended C4 on ticks that resolve no endpoints while instance 0 is
owned: one whose write succeeds, and one on a full disk. -/
theorem empty_resolve_stops_process_witness :
    resolve defaultFlags (envOf { Subsets := [] } listTemplate) = ([], none) ∧
    tick defaultFlags (envOf { Subsets := [] } listTemplate) stateAB =
      ([.resolve "default" "memcached",
        .print "Endpoints changed, writing new config\n",
        .openFile "/etc/twemproxy/config.yaml" none,
        .writeString "/etc/twemproxy/config.yaml" "" none,
        .close "/etc/twemproxy/config.yaml", .kill 0, .recv 0],
       .ok { prevConfig := "", currentInstance := none,
             currentInstanceFinished := none, created := 1 }) ∧
    resolve defaultFlags envDiskFull = ([], none) ∧
    tick defaultFlags envDiskFull stateAB =
      ([.resolve "default" "memcached",
        .print "Endpoints changed, writing new config\n",
        .openFile "/etc/twemproxy/config.yaml" none,
        .writeString "/etc/twemproxy/config.yaml" "" (some "no space left on device"),
        .close "/etc/twemproxy/config.yaml"],
       .error (.panic "no space left on device")) :=
  ⟨rfl,
   ((empty_resolve_stops_process defaultFlags (envOf { Subsets := [] } listTemplate)
      rfl).2.2.2 stateAB reachable_stateAB).2.2 { cmd := 0, finished := 0 } rfl |>.1 rfl rfl,
   rfl,
   ((empty_resolve_stops_process defaultFlags envDiskFull
      rfl).2.2.2 stateAB reachable_stateAB).2.2 { cmd := 0, finished := 0 } rfl |>.2.2
        "no space left on device" rfl rfl⟩

/-! ## Rendering -/

/-- C6, as stated, fails: the two lists of the witness are permutations of each
other, and with the template that prints the entries one per line `getConfig`
computes two different documents. -/
theorem permuted_endpoints_different_documents :
    resolve defaultFlags (envOf endpointsAB listTemplate) =
      (["10.0.0.1:11211", "10.0.0.2:11211"], none) ∧
    resolve defaultFlags (envOf endpointsBA listTemplate) =
      (["10.0.0.2:11211", "10.0.0.1:11211"], none) ∧
    List.Perm ["10.0.0.1:11211", "10.0.0.2:11211"] ["10.0.0.2:11211", "10.0.0.1:11211"] ∧
    (getConfig defaultFlags (envOf endpointsAB listTemplate)).2 =
      .ok "10.0.0.1:11211\n10.0.0.2:11211\n" ∧
    (getConfig defaultFlags (envOf endpointsBA listTemplate)).2 =
      .ok "10.0.0.2:11211\n10.0.0.1:11211\n" ∧
    (getConfig defaultFlags (envOf endpointsAB listTemplate)).2 ≠
      (getConfig defaultFlags (envOf endpointsBA listTemplate)).2 := by
  refine ⟨rfl, rfl, List.Perm.swap _ _ _, rfl, rfl, ?_⟩
  intro h
  have h1 : (getConfig defaultFlags (envOf endpointsAB listTemplate)).2 =
      .ok "10.0.0.1:11211\n10.0.0.2:11211\n" := rfl
  have h2 : (getConfig defaultFlags (envOf endpointsBA listTemplate)).2 =
      .ok "10.0.0.2:11211\n10.0.0.1:11211\n" := rfl
  rw [h1, h2] at h
  injection h with h
  exact absurd h (by decide)

/-- C6, amended: `getConfig` hands the resolved list to the template in the
order resolve returned it.  For two resolved lists that are permutations of
each other and a template file that parses, the two documents are the empty
document when the lists are empty and the output of the template on each list
otherwise; so they are identical exactly when the lists are empty or the
template writes the same text for both orders. -/
theorem permuted_endpoints_document (f : Flags) (e1 e2 : Env) (l1 l2 : List String)
    (tmpl : Template)
    (h1 : resolve f e1 = (l1, none)) (h2 : resolve f e2 = (l2, none))
    (hp : l1.Perm l2)
    (ht1 : e1.parseFiles f.templatePath = .ok tmpl)
    (ht2 : e2.parseFiles f.templatePath = .ok tmpl) :
    (getConfig f e1).2 = .ok (if l1 = [] then "" else (tmpl l1).1) ∧
    (getConfig f e2).2 = .ok (if l2 = [] then "" else (tmpl l2).1) ∧
    ((getConfig f e1).2 = (getConfig f e2).2 ↔ l1 = [] ∨ (tmpl l1).1 = (tmpl l2).1) := by
  have hd1 : (getConfig f e1).2 = .ok (if l1 = [] then "" else (tmpl l1).1) := by
    by_cases hl : l1 = [] <;> simp [getConfig, h1, applyTemplate, ht1, hl]
  have hd2 : (getConfig f e2).2 = .ok (if l2 = [] then "" else (tmpl l2).1) := by
    by_cases hl : l2 = [] <;> simp [getConfig, h2, applyTemplate, ht2, hl]
  refine ⟨hd1, hd2, ?_⟩
  rw [hd1, hd2]
  by_cases hl : l1 = []
  · have hl2 : l2 = [] := by subst hl; exact hp.nil_eq.symm
    simp [hl, hl2]
  · have hl2 : l2 ≠ [] := by
      intro hc
      subst hc
      exact hl hp.eq_nil
    simp [hl, hl2]

/-- The amended C6 on the two lists of the claim and the template that prints the
number of endpoints: the documents are identical. -/
theorem permuted_endpoints_document_witness :
    resolve defaultFlags (envOf endpointsAB countTemplate) =
      (["10.0.0.1:11211", "10.0.0.2:11211"], none) ∧
    List.Perm ["10.0.0.1:11211", "10.0.0.2:11211"] ["10.0.0.2:11211", "10.0.0.1:11211"] ∧
    (getConfig defaultFlags (envOf endpointsAB countTemplate)).2 =
      (getConfig defaultFlags (envOf endpointsBA countTemplate)).2 :=
  ⟨rfl, List.Perm.swap _ _ _,
    (permuted_endpoints_document defaultFlags
      (envOf endpointsAB countTemplate)
      (envOf endpointsBA countTemplate)
      ["10.0.0.1:11211", "10.0.0.2:11211"] ["10.0.0.2:11211", "10.0.0.1:11211"]
      countTemplate rfl rfl (List.Perm.swap _ _ _) rfl rfl).2.2.mpr
      (Or.inr rfl)⟩

/-- C8: the code departs from the claim.  The template file parses, executing
it on the two endpoints fails after writing one line, and yet `applyTemplate`
returns that line with a nil error; the startup then writes it to the config
file and launches the process instead of terminating. -/
theorem execute_error_is_dropped :
    (indexTemplate ["10.0.0.1:11211", "10.0.0.2:11211"]).2 =
      some "error calling index: index out of range: 5" ∧
    applyTemplate (fun _ => .ok indexTemplate) "/etc/twemproxy/template.yaml"
      ["10.0.0.1:11211", "10.0.0.2:11211"] = ("servers:\n", none) ∧
    startup defaultFlags (envOf endpointsAB indexTemplate) =
      ([.resolve "default" "memcached",
        .render "/etc/twemproxy/template.yaml" ["10.0.0.1:11211", "10.0.0.2:11211"],
        .openFile "/etc/twemproxy/config.yaml" none,
        .writeString "/etc/twemproxy/config.yaml" "servers:\n" none,
        .close "/etc/twemproxy/config.yaml",
        .launch ["/usr/sbin/nutcracker", "-v", "11", "-c", "/etc/twemproxy/config.yaml"]
          { cmd := 0, finished := 0 }],
       .ok { prevConfig := "servers:\n", currentInstance := some { cmd := 0, finished := 0 },
             currentInstanceFinished := some 0, created := 1 }) := by
  refine ⟨rfl, rfl, rfl⟩

/-! ## Writes and launches within a step -/

theorem stopCurrent_effects (s : State) :
    ∀ y ∈ (stopCurrent s).1, y.isWrite = false ∧ y.isLaunch = false := by
  intro y hy
  unfold stopCurrent at hy
  split at hy
  · split at hy
    · simp at hy
      rcases hy with rfl | rfl <;> exact ⟨rfl, rfl⟩
    · simp at hy
      subst hy
      exact ⟨rfl, rfl⟩
  · simp at hy

theorem last_launch_unique {l pre post : List Effect} {a x : Effect}
    (hl : ∀ y ∈ l, y.isLaunch = false) (hx : x.isLaunch = true)
    (h : l ++ [a] = pre ++ x :: post) : pre = l ∧ x = a ∧ post = [] := by
  induction l generalizing pre with
  | nil =>
    cases pre with
    | nil =>
      simp at h
      exact ⟨rfl, h.1.symm, h.2⟩
    | cons p ps =>
      simp at h
  | cons b l ih =>
    cases pre with
    | nil =>
      simp at h
      have := hl b (List.mem_cons_self _ _)
      rw [h.1] at this
      rw [this] at hx
      cases hx
    | cons p ps =>
      simp at h
      obtain ⟨h1, h2, h3⟩ := ih (fun y hy => hl y (List.mem_cons_of_mem _ hy)) h.2
      exact ⟨by rw [h.1, h1], h2, h3⟩

theorem startup_shape (f : Flags) (e : Env) :
    (∀ x ∈ (startup f e).1, x.isLaunch = false) ∨
    ∃ before doc mid x,
      (startup f e).1 =
        (before ++ .openFile f.configPath none :: .writeString f.configPath doc none :: mid)
          ++ [x] ∧
      (∀ y ∈ before, y.isLaunch = false ∧ y.isWrite = false) ∧
      (∀ y ∈ mid, y.isWrite = false ∧ y.isLaunch = false) ∧ doc ≠ "" ∧
      (getConfig f e).2 = .ok doc ∧
      (∀ s1, (startup f e).2 = .ok s1 → s1.prevConfig = doc) ∧
      (∀ argv inst, x = .launch argv inst →
        argv = command f.twemproxyPath f.configPath ∧
        ∃ s1, (startup f e).2 = .ok s1 ∧ s1.currentInstance = some inst) := by
  have hcfg := getConfig_effects f e
  rcases hg : getConfig f e with ⟨t0, msg | doc⟩
  · left
    rw [hg] at hcfg
    intro x hx
    simp [startup, hg] at hx
    exact (not_action (hcfg x hx)).1
  · rw [hg] at hcfg
    have hwl := writeConfig_effects e doc f.configPath
    rcases hwc : writeConfig e doc f.configPath with ⟨tw, _ | err⟩
    · obtain ⟨ho, hw, htw⟩ := writeConfig_ok hwc
      subst htw
      by_cases hd : doc = ""
      · left
        subst hd
        intro x hx
        simp [startup, hg, hwc] at hx
        rcases hx with hx | rfl | rfl | rfl | rfl
        · exact (not_action (hcfg x hx)).1
        all_goals rfl
      · right
        rcases hl : launchTwemproxy e 0 f.twemproxyPath f.configPath with ⟨tl, err | inst⟩
        · obtain ⟨_, htl⟩ := launchTwemproxy_error hl
          subst htl
          refine ⟨t0, doc, [.close f.configPath],
            .launchFailed (command f.twemproxyPath f.configPath) err,
            ?_, fun y hy => ⟨(not_action (hcfg y hy)).1, (not_action (hcfg y hy)).2.1⟩,
            ?_, hd, rfl, ?_, ?_⟩
          · simp [startup, hg, hwc, hd, hl]
          · intro y hy
            simp at hy
            subst hy
            exact ⟨rfl, rfl⟩
          · intro s1 hs1
            simp [startup, hg, hwc, hd, hl] at hs1
          · intro argv inst hx
            cases hx
        · obtain ⟨_, hinst, htl⟩ := launchTwemproxy_ok hl
          subst htl
          refine ⟨t0, doc, [.close f.configPath],
            .launch (command f.twemproxyPath f.configPath) { cmd := 0, finished := 0 },
            ?_, fun y hy => ⟨(not_action (hcfg y hy)).1, (not_action (hcfg y hy)).2.1⟩,
            ?_, hd, rfl, ?_, ?_⟩
          · simp [startup, hg, hwc, hd, hl]
          · intro y hy
            simp at hy
            subst hy
            exact ⟨rfl, rfl⟩
          · intro s1 hs1
            simp [startup, hg, hwc, hd, hl] at hs1
            rw [← hs1]
          · intro argv inst1 hx
            cases hx
            exact ⟨rfl, ⟨State.mk doc (some inst) (some inst.finished) 1,
              by simp [startup, hg, hwc, hd, hl], by rw [hinst]⟩⟩
    · left
      rw [hwc] at hwl
      intro x hx
      simp [startup, hg, hwc] at hx
      rcases hx with hx | hx
      · exact (not_action (hcfg x hx)).1
      · exact (hwl x hx).2

theorem tick_shape (f : Flags) (e : Env) (s : State) :
    (∀ x ∈ (tick f e s).1, x.isLaunch = false) ∨
    ∃ before doc mid x,
      (tick f e s).1 =
        (before ++ .openFile f.configPath none :: .writeString f.configPath doc none :: mid)
          ++ [x] ∧
      (∀ y ∈ before, y.isLaunch = false ∧ y.isWrite = false) ∧
      (∀ y ∈ mid, y.isWrite = false ∧ y.isLaunch = false) ∧ doc ≠ "" ∧
      (getConfig f e).2 = .ok doc ∧
      (∀ s1, (tick f e s).2 = .ok s1 → s1.prevConfig = doc) ∧
      (∀ argv inst, x = .launch argv inst →
        argv = command f.twemproxyPath f.configPath ∧
        ∃ s1, (tick f e s).2 = .ok s1 ∧ s1.currentInstance = some inst) := by
  have hcfg := getConfig_effects f e
  have hstop := stopCurrent_effects s
  rcases hg : getConfig f e with ⟨t0, msg | doc⟩
  · left
    rw [hg] at hcfg
    intro x hx
    simp [tick, hg] at hx
    exact (not_action (hcfg x hx)).1
  · rw [hg] at hcfg
    by_cases hne : doc = s.prevConfig
    · left
      intro x hx
      simp [tick, hg, hne] at hx
      exact (not_action (hcfg x hx)).1
    · have hwl := writeConfig_effects e doc f.configPath
      rcases hwc : writeConfig e doc f.configPath with ⟨tw, _ | err⟩
      · obtain ⟨ho, hw, htw⟩ := writeConfig_ok hwc
        subst htw
        rcases hst : stopCurrent s with ⟨t2, h | s2⟩
        · left
          rw [hst] at hstop
          intro x hx
          simp [tick, hg, hne, hwc, hst] at hx
          rcases hx with hx | rfl | rfl | rfl | rfl | hx
          · exact (not_action (hcfg x hx)).1
          · rfl
          · rfl
          · rfl
          · rfl
          · exact (hstop x hx).2
        · rw [hst] at hstop
          by_cases hd : doc = ""
          · left
            subst hd
            intro x hx
            simp [tick, hg, hne, hwc, hst] at hx
            rcases hx with hx | rfl | rfl | rfl | rfl | hx
            · exact (not_action (hcfg x hx)).1
            · rfl
            · rfl
            · rfl
            · rfl
            · exact (hstop x hx).2
          · right
            have hbefore : ∀ y ∈ t0 ++ [Effect.print "Endpoints changed, writing new config\n"],
                y.isLaunch = false ∧ y.isWrite = false := by
              intro y hy
              simp at hy
              rcases hy with hy | rfl
              · exact ⟨(not_action (hcfg y hy)).1, (not_action (hcfg y hy)).2.1⟩
              · exact ⟨rfl, rfl⟩
            have hmid : ∀ y ∈ Effect.close f.configPath :: t2,
                y.isWrite = false ∧ y.isLaunch = false := by
              intro y hy
              simp at hy
              rcases hy with rfl | hy
              · exact ⟨rfl, rfl⟩
              · exact hstop y hy
            rcases hl : launchTwemproxy e s2.created f.twemproxyPath f.configPath with
              ⟨tl, err | inst⟩
            · obtain ⟨_, htl⟩ := launchTwemproxy_error hl
              subst htl
              refine ⟨t0 ++ [.print "Endpoints changed, writing new config\n"], doc,
                .close f.configPath :: t2,
                .launchFailed (command f.twemproxyPath f.configPath) err,
                ?_, hbefore, hmid, hd, rfl, ?_, ?_⟩
              · simp [tick, hg, hne, hwc, hst, hd, hl]
              · intro s1 hs1
                simp [tick, hg, hne, hwc, hst, hd, hl] at hs1
              · intro argv inst hx
                cases hx
            · obtain ⟨_, hinst, htl⟩ := launchTwemproxy_ok hl
              subst htl
              refine ⟨t0 ++ [.print "Endpoints changed, writing new config\n"], doc,
                .close f.configPath :: t2,
                .launch (command f.twemproxyPath f.configPath)
                  { cmd := s2.created, finished := s2.created },
                ?_, hbefore, hmid, hd, rfl, ?_, ?_⟩
              · simp [tick, hg, hne, hwc, hst, hd, hl]
              · intro s1 hs1
                simp [tick, hg, hne, hwc, hst, hd, hl] at hs1
                rw [← hs1]
              · intro argv inst1 hx
                cases hx
                exact ⟨rfl, ⟨State.mk doc (some inst) (some inst.finished) (s2.created + 1),
                  by simp [tick, hg, hne, hwc, hst, hd, hl], by rw [hinst]⟩⟩
      · left
        rw [hwc] at hwl
        intro x hx
        simp [tick, hg, hne, hwc] at hx
        rcases hx with hx | rfl | hx
        · exact (not_action (hcfg x hx)).1
        · rfl
        · exact (hwl x hx).2

theorem step_shape (f : Flags) (e : Env) (s0 : Option State) :
    (∀ x ∈ (step f e s0).1, x.isLaunch = false) ∨
    ∃ before doc mid x,
      (step f e s0).1 =
        (before ++ .openFile f.configPath none :: .writeString f.configPath doc none :: mid)
          ++ [x] ∧
      (∀ y ∈ before, y.isLaunch = false ∧ y.isWrite = false) ∧
      (∀ y ∈ mid, y.isWrite = false ∧ y.isLaunch = false) ∧ doc ≠ "" ∧
      (getConfig f e).2 = .ok doc ∧
      (∀ s1, (step f e s0).2 = .ok s1 → s1.prevConfig = doc) ∧
      (∀ argv inst, x = .launch argv inst →
        argv = command f.twemproxyPath f.configPath ∧
        ∃ s1, (step f e s0).2 = .ok s1 ∧ s1.currentInstance = some inst) := by
  cases s0 with
  | none => exact startup_shape f e
  | some s => exact tick_shape f e s

/-- C7: in a reconciliation step (the startup, or a tick from any loop state),
every launch of the supervised process, started or failed, comes after
`writeConfig` opened (creating or truncating) the config path and wrote a
non-empty document to it, both without error, in the same step, with no other
open, write or launch before or in between; the document is the one `getConfig`
returned in this step, the file then holds exactly that document, the launch
is the last effect of the step, a started process was
given the config path, and if the step completes the document is the
last-applied document of the state it leaves. -/
theorem launch_follows_write (f : Flags) (e : Env) (s0 : Option State)
    (pre post : List Effect) (x : Effect)
    (ht : (step f e s0).1 = pre ++ x :: post) (hx : x.isLaunch = true) :
    ∃ before doc mid,
      pre = before ++ .openFile f.configPath none ::
        .writeString f.configPath doc none :: mid ∧
      doc ≠ "" ∧
      (getConfig f e).2 = .ok doc ∧
      (∀ y ∈ mid, y.isWrite = false ∧ y.isLaunch = false) ∧
      (∀ y ∈ before, y.isLaunch = false ∧ y.isWrite = false) ∧
      (∀ init, fileAfter f.configPath init pre = some doc) ∧
      post = [] ∧
      (∀ s1, (step f e s0).2 = .ok s1 → s1.prevConfig = doc) ∧
      (∀ argv inst, x = .launch argv inst →
        argv = command f.twemproxyPath f.configPath ∧
        ∃ s1, (step f e s0).2 = .ok s1 ∧ s1.currentInstance = some inst ∧
          s1.prevConfig = doc) := by
  rcases step_shape f e s0 with
    hno | ⟨before, doc, mid, a, hshape, hb, hm, hd, hdoc, hprev, hlaunch⟩
  · have hmem : x ∈ (step f e s0).1 := by rw [ht]; simp
    rw [hno x hmem] at hx
    cases hx
  · rw [hshape] at ht
    have hl : ∀ y ∈ before ++ .openFile f.configPath none ::
        .writeString f.configPath doc none :: mid, y.isLaunch = false := by
      intro y hy
      simp at hy
      rcases hy with hy | rfl | rfl | hy
      · exact (hb y hy).1
      · rfl
      · rfl
      · exact (hm y hy).2
    obtain ⟨hpre, hxa, hpost⟩ := last_launch_unique hl hx ht
    subst hxa
    refine ⟨before, doc, mid, hpre, hd, hdoc, hm, hb, ?_, hpost, hprev, ?_⟩
    · intro init
      rw [hpre]
      exact fileAfter_written f.configPath doc before mid (fun y hy => (hm y hy).1) init
    · intro argv inst hxl
      obtain ⟨h1, s1, h2, h3⟩ := hlaunch argv inst hxl
      exact ⟨h1, s1, h2, h3, hprev s1 h2⟩

/-- The theorem of C7 on the launch of instance 1 in a tick that replaces
the owned instance 0. -/
theorem launch_follows_write_witness :
    (step defaultFlags (envOf endpointsBA listTemplate) (some stateAB)).1 =
      [.resolve "default" "memcached",
       .render "/etc/twemproxy/template.yaml" ["10.0.0.2:11211", "10.0.0.1:11211"],
       .print "Endpoints changed, writing new config\n",
       .openFile "/etc/twemproxy/config.yaml" none,
       .writeString "/etc/twemproxy/config.yaml" "10.0.0.2:11211\n10.0.0.1:11211\n" none,
       .close "/etc/twemproxy/config.yaml",
       .kill 0, .recv 0] ++
      .launch ["/usr/sbin/nutcracker", "-v", "11", "-c", "/etc/twemproxy/config.yaml"]
        { cmd := 1, finished := 1 } :: [] ∧
    ∃ before doc mid,
      [Effect.resolve "default" "memcached",
       .render "/etc/twemproxy/template.yaml" ["10.0.0.2:11211", "10.0.0.1:11211"],
       .print "Endpoints changed, writing new config\n",
       .openFile "/etc/twemproxy/config.yaml" none,
       .writeString "/etc/twemproxy/config.yaml" "10.0.0.2:11211\n10.0.0.1:11211\n" none,
       .close "/etc/twemproxy/config.yaml",
       .kill 0, .recv 0] =
        before ++ .openFile "/etc/twemproxy/config.yaml" none ::
          .writeString "/etc/twemproxy/config.yaml" doc none :: mid ∧
      doc ≠ "" ∧
      (getConfig defaultFlags (envOf endpointsBA listTemplate)).2 = .ok doc ∧
      ∀ init, fileAfter "/etc/twemproxy/config.yaml" init
        [.resolve "default" "memcached",
         .render "/etc/twemproxy/template.yaml" ["10.0.0.2:11211", "10.0.0.1:11211"],
         .print "Endpoints changed, writing new config\n",
         .openFile "/etc/twemproxy/config.yaml" none,
         .writeString "/etc/twemproxy/config.yaml" "10.0.0.2:11211\n10.0.0.1:11211\n" none,
         .close "/etc/twemproxy/config.yaml",
         .kill 0, .recv 0] = some doc :=
  ⟨rfl,
    match launch_follows_write defaultFlags (envOf endpointsBA listTemplate) (some stateAB)
      [.resolve "default" "memcached",
       .render "/etc/twemproxy/template.yaml" ["10.0.0.2:11211", "10.0.0.1:11211"],
       .print "Endpoints changed, writing new config\n",
       .openFile "/etc/twemproxy/config.yaml" none,
       .writeString "/etc/twemproxy/config.yaml" "10.0.0.2:11211\n10.0.0.1:11211\n" none,
       .close "/etc/twemproxy/config.yaml",
       .kill 0, .recv 0] []
      (.launch ["/usr/sbin/nutcracker", "-v", "11", "-c", "/etc/twemproxy/config.yaml"]
        { cmd := 1, finished := 1 }) rfl rfl with
    | ⟨before, doc, mid, h1, h2, h3, _, _, h5, _⟩ => ⟨before, doc, mid, h1, h2, h3, h5⟩⟩

/-! ## Supervision -/

theorem run_append (a b : List Effect) : ∀ m : Supervision,
    Supervision.run m (a ++ b) = (Supervision.run m a).bind (fun m1 => Supervision.run m1 b) := by
  induction a with
  | nil => intro m; rfl
  | cons x a ih =>
    intro m
    simp only [List.cons_append, Supervision.run]
    cases m.step x with
    | none => rfl
    | some m1 => exact ih m1

theorem run_passive (t : List Effect) (h : ∀ x ∈ t, x.isProcess = false) :
    ∀ m : Supervision, Supervision.run m t = some m := by
  induction t with
  | nil => intro m; rfl
  | cons x t ih =>
    intro m
    have hx := h x (List.mem_cons_self _ _)
    have hstep : m.step x = some m := by
      cases x <;> first | rfl | simp [Effect.isProcess] at hx
    simp only [Supervision.run, hstep]
    exact ih (fun y hy => h y (List.mem_cons_of_mem _ hy)) m

theorem run_skip {a : List Effect} (h : ∀ x ∈ a, x.isProcess = false)
    (m : Supervision) (rest : List Effect) :
    Supervision.run m (a ++ rest) = Supervision.run m rest := by
  rw [run_append, run_passive a h m]
  rfl

theorem getConfig_passive (f : Flags) (e : Env) :
    ∀ x ∈ (getConfig f e).1, x.isProcess = false :=
  fun x hx => (not_action (getConfig_effects f e x hx)).2.2

theorem writeConfig_passive (e : Env) (content configFile : String) :
    ∀ x ∈ (writeConfig e content configFile).1, x.isProcess = false :=
  fun x hx => (writeConfig_effects e content configFile x hx).1

theorem startup_supervised (f : Flags) (e : Env) :
    ∃ m1, Supervision.run .idle (startup f e).1 = some m1 ∧
      ∀ s1, (startup f e).2 = .ok s1 → m1 = s1.supervision := by
  have hcfg := getConfig_passive f e
  rcases hg : getConfig f e with ⟨t0, msg | doc⟩
  · rw [hg] at hcfg
    exact ⟨.idle, by simp [startup, hg, run_passive t0 hcfg], by simp [startup, hg]⟩
  · rw [hg] at hcfg
    have hwp := writeConfig_passive e doc f.configPath
    rcases hwc : writeConfig e doc f.configPath with ⟨tw, _ | err⟩
    · rw [hwc] at hwp
      by_cases hd : doc = ""
      · subst hd
        refine ⟨.idle, ?_, ?_⟩
        · simp only [startup, hg, hwc, ne_eq, not_true_eq_false, if_false, List.append_assoc]
          rw [run_skip hcfg, run_skip hwp]
          rfl
        · intro s1 hs1
          simp [startup, hg, hwc] at hs1
          rw [← hs1]
          rfl
      · rcases hl : launchTwemproxy e 0 f.twemproxyPath f.configPath with ⟨tl, err | inst⟩
        · obtain ⟨_, htl⟩ := launchTwemproxy_error hl
          subst htl
          refine ⟨.idle, ?_, by simp [startup, hg, hwc, hd, hl]⟩
          simp only [startup, hg, hwc, ne_eq, hd, not_false_eq_true, if_true, hl,
            List.append_assoc]
          rw [run_skip hcfg, run_skip hwp]
          rfl
        · obtain ⟨_, hinst, htl⟩ := launchTwemproxy_ok hl
          subst htl
          refine ⟨.running { cmd := 0, finished := 0 }, ?_, ?_⟩
          · simp only [startup, hg, hwc, ne_eq, hd, not_false_eq_true, if_true, hl,
              List.append_assoc]
            rw [run_skip hcfg, run_skip hwp]
            rfl
          · intro s1 hs1
            simp [startup, hg, hwc, hd, hl] at hs1
            rw [← hs1, hinst]
            rfl
    · rw [hwc] at hwp
      refine ⟨.idle, ?_, by simp [startup, hg, hwc]⟩
      simp only [startup, hg, hwc]
      rw [run_skip hcfg, run_passive _ hwp]

theorem run_print (m : Supervision) (msg : String) (rest : List Effect) :
    Supervision.run m (.print msg :: rest) = Supervision.run m rest := by
  simp only [Supervision.run, Supervision.step]

theorem tick_supervised (f : Flags) (e : Env) (s : State) (hs : Inv s) :
    ∃ m1, Supervision.run s.supervision (tick f e s).1 = some m1 ∧
      ∀ s1, (tick f e s).2 = .ok s1 → m1 = s1.supervision := by
  have hcfg := getConfig_passive f e
  obtain ⟨_, h2, _⟩ := hs
  rcases hg : getConfig f e with ⟨t0, msg | doc⟩
  · rw [hg] at hcfg
    exact ⟨s.supervision, by simp [tick, hg, run_passive t0 hcfg], by simp [tick, hg]⟩
  · rw [hg] at hcfg
    by_cases hne : doc = s.prevConfig
    · refine ⟨s.supervision, by simp [tick, hg, hne, run_passive t0 hcfg], ?_⟩
      intro s1 hs1
      simp [tick, hg, hne] at hs1
      rw [← hs1]
    · have hwp := writeConfig_passive e doc f.configPath
      rcases hwc : writeConfig e doc f.configPath with ⟨tw, _ | err⟩
      · rw [hwc] at hwp
        cases hi : s.currentInstance with
        | none =>
          have hsup : s.supervision = .idle := by simp [State.supervision, hi]
          have hst : stopCurrent s = ([], .ok s) := by simp [stopCurrent, hi]
          by_cases hd : doc = ""
          · subst hd
            refine ⟨.idle, ?_, ?_⟩
            · simp only [tick, hg, ne_eq, hne, not_false_eq_true, if_true, hwc, hst,
                not_true_eq_false, if_false, List.append_assoc, List.singleton_append, List.cons_append,
                List.nil_append, hsup]
              rw [run_skip hcfg, run_print, run_skip hwp]
              rfl
            · intro s1 hs1
              simp [tick, hg, hne, hwc, hst] at hs1
              rw [← hs1]
              simp [State.supervision, hi]
          · rcases hl : launchTwemproxy e s.created f.twemproxyPath f.configPath with
              ⟨tl, err | inst⟩
            · obtain ⟨_, htl⟩ := launchTwemproxy_error hl
              subst htl
              refine ⟨.idle, ?_, by simp [tick, hg, hne, hwc, hst, hd, hl]⟩
              simp only [tick, hg, ne_eq, hne, not_false_eq_true, if_true, hwc, hst, hd, hl,
                List.append_assoc, List.singleton_append, List.cons_append,
                List.nil_append, hsup]
              rw [run_skip hcfg, run_print, run_skip hwp]
              rfl
            · obtain ⟨_, hinst, htl⟩ := launchTwemproxy_ok hl
              subst htl
              refine ⟨.running { cmd := s.created, finished := s.created }, ?_, ?_⟩
              · simp only [tick, hg, ne_eq, hne, not_false_eq_true, if_true, hwc, hst, hd, hl,
                  List.append_assoc, List.singleton_append, List.cons_append,
                List.nil_append, hsup]
                rw [run_skip hcfg, run_print, run_skip hwp]
                rfl
              · intro s1 hs1
                simp [tick, hg, hne, hwc, hst, hd, hl] at hs1
                rw [← hs1, hinst]
                rfl
        | some old =>
          have hsup : s.supervision = .running old := by simp [State.supervision, hi]
          have hch : s.currentInstanceFinished = some old.finished := by rw [h2, hi]; rfl
          have hst : stopCurrent s = ([.kill old.cmd, .recv old.finished],
              .ok { s with currentInstance := none, currentInstanceFinished := none }) := by
            simp [stopCurrent, hi, hch]
          have hkill : ∀ rest, Supervision.run (.running old)
              (.kill old.cmd :: .recv old.finished :: rest) = Supervision.run .idle rest := by
            intro rest
            simp [Supervision.run, Supervision.step]
          by_cases hd : doc = ""
          · subst hd
            refine ⟨.idle, ?_, ?_⟩
            · simp only [tick, hg, ne_eq, hne, not_false_eq_true, if_true, hwc, hst,
                not_true_eq_false, if_false, List.append_assoc, List.singleton_append, List.cons_append,
                List.nil_append, hsup]
              rw [run_skip hcfg, run_print, run_skip hwp, hkill]
              rfl
            · intro s1 hs1
              simp [tick, hg, hne, hwc, hst] at hs1
              rw [← hs1]
              rfl
          · rcases hl : launchTwemproxy e s.created f.twemproxyPath f.configPath with
              ⟨tl, err | inst⟩
            · obtain ⟨_, htl⟩ := launchTwemproxy_error hl
              subst htl
              refine ⟨.idle, ?_, by simp [tick, hg, hne, hwc, hst, hd, hl]⟩
              simp only [tick, hg, ne_eq, hne, not_false_eq_true, if_true, hwc, hst, hd, hl,
                List.append_assoc, List.singleton_append, List.cons_append,
                List.nil_append, hsup]
              rw [run_skip hcfg, run_print, run_skip hwp, hkill]
              rfl
            · obtain ⟨_, hinst, htl⟩ := launchTwemproxy_ok hl
              subst htl
              refine ⟨.running { cmd := s.created, finished := s.created }, ?_, ?_⟩
              · simp only [tick, hg, ne_eq, hne, not_false_eq_true, if_true, hwc, hst, hd, hl,
                  List.append_assoc, List.singleton_append, List.cons_append,
                List.nil_append, hsup]
                rw [run_skip hcfg, run_print, run_skip hwp, hkill]
                rfl
              · intro s1 hs1
                simp [tick, hg, hne, hwc, hst, hd, hl] at hs1
                rw [← hs1, hinst]
                rfl
      · rw [hwc] at hwp
        refine ⟨s.supervision, ?_, by simp [tick, hg, hne, hwc]⟩
        simp only [tick, hg, ne_eq, hne, not_false_eq_true, if_true, hwc, List.append_assoc,
          List.singleton_append, List.cons_append, List.nil_append]
        rw [run_skip hcfg, run_print, run_passive _ hwp]

theorem select_supervised (f : Flags) (s : State) (ev : Event) (hs : Inv s) :
    ∃ m1, Supervision.run s.supervision (select f s ev).1 = some m1 ∧
      ∀ s1, (select f s ev).2 = .ok s1 → m1 = s1.supervision := by
  cases ev with
  | timer e => exact tick_supervised f e s hs
  | finished ch err =>
    obtain ⟨_, h2, _⟩ := hs
    by_cases hch : s.currentInstanceFinished = some ch
    · cases hi : s.currentInstance with
      | none => rw [h2, hi] at hch; cases hch
      | some inst =>
        rw [h2, hi] at hch
        simp at hch
        have hch1 : s.currentInstanceFinished = some ch := by rw [h2, hi, ← hch]; rfl
        exact ⟨.died, by simp [select, hch1, State.supervision, hi, Supervision.run,
          Supervision.step, hch], by simp [select, hch1]⟩
    · refine ⟨s.supervision, by simp [select, hch, Supervision.run], ?_⟩
      intro s1 hs1
      simp [select, hch] at hs1
      rw [hs1]

theorem loop_supervised (f : Flags) (evs : List Event) : ∀ s : State, Inv s →
    ∃ m1, Supervision.run s.supervision (loop f s evs).1 = some m1 := by
  induction evs with
  | nil => intro s _; exact ⟨s.supervision, rfl⟩
  | cons ev evs ih =>
    intro s hs
    obtain ⟨m1, hrun, hnext⟩ := select_supervised f s ev hs
    rcases hsel : select f s ev with ⟨t, h | s1⟩
    · rw [hsel] at hrun
      exact ⟨m1, by simp only [loop, hsel]; exact hrun⟩
    · rw [hsel] at hrun hnext
      have hm1 : m1 = s1.supervision := hnext s1 rfl
      obtain ⟨m2, hrun2⟩ := ih s1 (select_inv hs hsel)
      refine ⟨m2, ?_⟩
      simp only [loop, hsel]
      rw [run_append]
      simp only at hrun
      rw [hrun, hm1]
      exact hrun2

theorem main_supervised (f : Flags) (e0 : Env) (evs : List Event) :
    ∃ m1, Supervision.run .idle (main f e0 evs).1 = some m1 := by
  obtain ⟨m1, hrun, hnext⟩ := startup_supervised f e0
  rcases hst : startup f e0 with ⟨t, h | s⟩
  · rw [hst] at hrun
    exact ⟨m1, by simp only [main, hst]; exact hrun⟩
  · rw [hst] at hrun hnext
    have hm1 : m1 = s.supervision := hnext s rfl
    obtain ⟨m2, hrun2⟩ := loop_supervised f evs s (startup_inv hst)
    refine ⟨m2, ?_⟩
    simp only [main, hst]
    rw [run_append]
    simp only at hrun
    rw [hrun, hm1]
    exact hrun2

theorem alive_of_run (t : List Effect) : ∀ m m1 : Supervision,
    Supervision.run m t = some m1 → alive m.instances t = m1.instances := by
  induction t with
  | nil =>
    intro m m1 h
    simp [Supervision.run] at h
    rw [h]
    rfl
  | cons x t ih =>
    intro m m1 h
    simp only [Supervision.run] at h
    cases hstep : m.step x with
    | none => rw [hstep] at h; cases h
    | some m2 =>
      rw [hstep] at h
      have hrest := ih m2 m1 h
      rw [← hrest]
      cases x <;> cases m <;>
        simp only [Supervision.step, Option.some.injEq, reduceCtorEq] at hstep <;>
        first
        | (subst hstep; rfl)
        | (split at hstep <;> simp at hstep; subst hstep; simp_all [alive, Supervision.instances])

theorem run_prefix (a b : List Effect) (m m1 : Supervision)
    (h : Supervision.run m (a ++ b) = some m1) : ∃ m2, Supervision.run m a = some m2 := by
  rw [run_append] at h
  cases ha : Supervision.run m a with
  | none => rw [ha] at h; cases h
  | some m2 => exact ⟨m2, rfl⟩

/-- C2: in every execution (the startup followed by any sequence of events) the
trace of effects obeys the supervision discipline, in which a launch happens
only when idle, that is before any launch or after the owned instance was sent
a kill and its completion was received from its `finished` channel; so at every
point of the trace at most one instance is alive, and none is alive at the
moment an instance is launched. -/
theorem at_most_one_instance (f : Flags) (e0 : Env) (evs : List Event) :
    (∃ m, Supervision.run .idle (main f e0 evs).1 = some m) ∧
    (∀ n, (alive [] ((main f e0 evs).1.take n)).length ≤ 1) ∧
    ∀ pre argv inst post, (main f e0 evs).1 = pre ++ .launch argv inst :: post →
      alive [] pre = [] ∧ Supervision.run .idle pre = some .idle := by
  obtain ⟨m, hm⟩ := main_supervised f e0 evs
  refine ⟨⟨m, hm⟩, ?_, ?_⟩
  · intro n
    have hsplit : (main f e0 evs).1 = (main f e0 evs).1.take n ++ (main f e0 evs).1.drop n :=
      (List.take_append_drop n _).symm
    rw [hsplit] at hm
    obtain ⟨m2, hm2⟩ := run_prefix _ _ _ _ hm
    have := alive_of_run _ _ _ hm2
    simp only [Supervision.instances] at this
    rw [this]
    cases m2 <;> simp [Supervision.instances]
  · intro pre argv inst post hsplit
    rw [hsplit] at hm
    obtain ⟨m2, hm2⟩ := run_prefix _ _ _ _ hm
    rw [run_append, hm2] at hm
    simp only [Option.bind, Supervision.run] at hm
    have hidle : m2 = .idle := by
      cases m2 <;> simp [Supervision.step] at hm ⊢
    subst hidle
    have := alive_of_run _ _ _ hm2
    simp only [Supervision.instances] at this
    exact ⟨this, hm2⟩

end Twemproxy
